import Mathlib

/-!
Shallow embedding of the MiniLang teaching compiler (lexer, parser,
semantic analyzer with symbol table, three-address IR generator, and the
pipeline driver), together with theorems settling the specification
claims about it.

Python renders counters into names with f-strings (f"t{n}", f"L{n}");
we embed that decimal rendering as `natToStr` below and prove it
injective, which the label-uniqueness invariant needs.
-/

namespace MiniLang

/-- Decimal digits of a natural number, least significant first
(empty for 0).  The fuel argument only bounds the recursion; any fuel
of at least `n` computes the digits of `n`. -/
def digitsRevAux : Nat → Nat → List Nat
  | _, 0 => []
  | 0, _ + 1 => []
  | fuel + 1, n + 1 => (n + 1) % 10 :: digitsRevAux fuel ((n + 1) / 10)

def digitsRev (n : Nat) : List Nat := digitsRevAux n n

/-- Value of a least-significant-first digit list. -/
def valRev : List Nat → Nat
  | [] => 0
  | d :: ds => d + 10 * valRev ds

theorem valRev_digitsRevAux :
    ∀ (fuel n : Nat), n ≤ fuel → valRev (digitsRevAux fuel n) = n := by
  intro fuel
  induction fuel with
  | zero =>
    intro n hn
    have : n = 0 := Nat.le_zero.mp hn
    subst this
    simp [digitsRevAux, valRev]
  | succ f ih =>
    intro n hn
    match n with
    | 0 => simp [digitsRevAux, valRev]
    | m + 1 =>
      have hdiv : (m + 1) / 10 ≤ f := by
        have := Nat.div_lt_self (Nat.succ_pos m) (show 1 < 10 by norm_num)
        omega
      rw [digitsRevAux, valRev, ih ((m + 1) / 10) hdiv]
      omega

theorem valRev_digitsRev (n : Nat) : valRev (digitsRev n) = n :=
  valRev_digitsRevAux n n (Nat.le_refl n)

theorem digitsRevAux_lt :
    ∀ (fuel n : Nat), ∀ d ∈ digitsRevAux fuel n, d < 10 := by
  intro fuel
  induction fuel with
  | zero =>
    intro n d hd
    match n with
    | 0 => simp [digitsRevAux] at hd
    | _ + 1 => simp [digitsRevAux] at hd
  | succ f ih =>
    intro n d hd
    match n with
    | 0 => simp [digitsRevAux] at hd
    | m + 1 =>
      rw [digitsRevAux] at hd
      rcases List.mem_cons.mp hd with h | h
      · omega
      · exact ih ((m + 1) / 10) d h

theorem digitsRev_lt (n : Nat) : ∀ d ∈ digitsRev n, d < 10 :=
  digitsRevAux_lt n n

/-- One decimal digit as the character Python's str() would print. -/
def digitChar : Nat → Char
  | 0 => '0' | 1 => '1' | 2 => '2' | 3 => '3' | 4 => '4'
  | 5 => '5' | 6 => '6' | 7 => '7' | 8 => '8' | _ => '9'

/-- Left inverse of `digitChar` on digits. -/
def charDigit : Char → Nat
  | '0' => 0 | '1' => 1 | '2' => 2 | '3' => 3 | '4' => 4
  | '5' => 5 | '6' => 6 | '7' => 7 | '8' => 8 | _ => 9

theorem charDigit_digitChar {d : Nat} (hd : d < 10) :
    charDigit (digitChar d) = d := by
  interval_cases d <;> rfl

/-- Decimal rendering of a natural number, as Python's str()/f-string
would produce it. -/
def natToStr (n : Nat) : String :=
  if n = 0 then "0" else String.mk ((digitsRev n).map digitChar).reverse

/-- Recover the value from a decimal string; left inverse of `natToStr`. -/
def strVal (s : String) : Nat :=
  valRev (s.data.reverse.map charDigit)

theorem map_charDigit_digitChar : ∀ {l : List Nat}, (∀ d ∈ l, d < 10) →
    (l.map digitChar).map charDigit = l
  | [], _ => rfl
  | d :: l, h => by
    simp only [List.map_cons, List.cons.injEq]
    exact ⟨charDigit_digitChar (h d (by simp)),
      map_charDigit_digitChar (fun a ha => h a (by simp [ha]))⟩

theorem strVal_natToStr (n : Nat) : strVal (natToStr n) = n := by
  unfold natToStr strVal
  by_cases h : n = 0
  · simp [h, valRev, charDigit]
  · simp only [h, if_false, reduceIte, String.mk, List.reverse_reverse]
    rw [map_charDigit_digitChar (digitsRev_lt n), valRev_digitsRev]

theorem natToStr_inj {a b : Nat} (h : natToStr a = natToStr b) : a = b := by
  have := congrArg strVal h
  rwa [strVal_natToStr, strVal_natToStr] at this

/-! ## Lexer (lexico.py) -/

/-- TokenType enumeration from lexico.py. -/
inductive TokenType where
  | VAR | IF | ELSE | WHILE | PRINT
  | IDENTIFIER | NUMBER
  | PLUS | MINUS | MULTIPLY | DIVIDE
  | EQUAL | NOT_EQUAL | LESS_THAN | GREATER_THAN | LESS_EQUAL | GREATER_EQUAL
  | ASSIGN | SEMICOLON | LPAREN | RPAREN | LBRACE | RBRACE
  | EOF | NEWLINE
deriving DecidableEq, Repr

/-- `TokenType.name` as Python's Enum exposes it (used in messages). -/
def tokenTypeName : TokenType → String
  | .VAR => "VAR" | .IF => "IF" | .ELSE => "ELSE" | .WHILE => "WHILE"
  | .PRINT => "PRINT" | .IDENTIFIER => "IDENTIFIER" | .NUMBER => "NUMBER"
  | .PLUS => "PLUS" | .MINUS => "MINUS" | .MULTIPLY => "MULTIPLY"
  | .DIVIDE => "DIVIDE" | .EQUAL => "EQUAL" | .NOT_EQUAL => "NOT_EQUAL"
  | .LESS_THAN => "LESS_THAN" | .GREATER_THAN => "GREATER_THAN"
  | .LESS_EQUAL => "LESS_EQUAL" | .GREATER_EQUAL => "GREATER_EQUAL"
  | .ASSIGN => "ASSIGN" | .SEMICOLON => "SEMICOLON" | .LPAREN => "LPAREN"
  | .RPAREN => "RPAREN" | .LBRACE => "LBRACE" | .RBRACE => "RBRACE"
  | .EOF => "EOF" | .NEWLINE => "NEWLINE"

/-- A Python numeric value carried by a NUMBER token / Number AST node:
`int(lexeme)` when the lexeme has no dot, `float(lexeme)` when it has
exactly one.  The float case keeps the source lexeme; Python's
shortest-round-trip float repr is outside the scope of every claim
(no verified program has a float literal), so no rendering semantics is
assigned to it beyond the literal text. -/
inductive NumVal where
  | i (n : Nat)
  | f (lit : String)
deriving DecidableEq, Repr

/-- Token.value is dynamically typed in Python: None for EOF, an
int/float for NUMBER, a string for everything else. -/
inductive TokValue where
  | vNone
  | vNum (v : NumVal)
  | vStr (s : String)
deriving DecidableEq, Repr

structure Token where
  type : TokenType
  value : TokValue
  line : Nat
  column : Nat
deriving DecidableEq, Repr

/-- Exceptions the lexer can let escape: its own LexicalError, or the
ValueError that Python's float() raises on a malformed literal. -/
inductive LexError where
  | lexicalError (msg : String)
  | valueError (lit : String)
deriving DecidableEq, Repr

/-- Characters accepted by Lexer.read_number's loop. -/
def isNumChar (c : Char) : Bool := c.isDigit || c = '.'

/-- Characters accepted by Lexer.read_identifier's loop. -/
def isIdentChar (c : Char) : Bool := c.isAlphanum || c = '_'

/-- Value of a run of decimal digit characters, as Python's int(). -/
def digitsToNat (cs : List Char) : Nat :=
  cs.foldl (fun a c => 10 * a + charDigit c) 0

/-- Lexer.KEYWORDS lookup. -/
def keywordType (s : String) : Option TokenType :=
  if s = "var" then some .VAR
  else if s = "if" then some .IF
  else if s = "else" then some .ELSE
  else if s = "while" then some .WHILE
  else if s = "print" then some .PRINT
  else none

/-- The single-character token table from Lexer.tokenize. -/
def singleCharToken (c : Char) : Option TokenType :=
  if c = '+' then some .PLUS
  else if c = '-' then some .MINUS
  else if c = '*' then some .MULTIPLY
  else if c = '/' then some .DIVIDE
  else if c = '=' then some .ASSIGN
  else if c = ';' then some .SEMICOLON
  else if c = '(' then some .LPAREN
  else if c = ')' then some .RPAREN
  else if c = '{' then some .LBRACE
  else if c = '}' then some .RBRACE
  else if c = '<' then some .LESS_THAN
  else if c = '>' then some .GREATER_THAN
  else none

/-- Lexer.read_number's value computation: int(s) when the lexeme has
no dot, float(s) otherwise; float() raises ValueError when the lexeme
(a digit run that starts with a digit) holds two or more dots. -/
def numberValue (cs : List Char) : Except LexError TokValue :=
  if '.' ∈ cs then
    if cs.count '.' ≥ 2 then .error (.valueError (String.mk cs))
    else .ok (.vNum (.f (String.mk cs)))
  else .ok (.vNum (.i (digitsToNat cs)))

/-- The main scanning loop of Lexer.tokenize over the remaining
characters, carrying current line and column.  Whitespace is skipped a
character at a time (Python consumes the run inside skip_whitespace and
re-enters the loop; the effect is identical).  Every iteration consumes
at least one character, so fuel equal to the input length makes the
fuel-exhaustion branch unreachable. -/
def tokenizeAux : Nat → List Char → Nat → Nat → List Token →
    Except LexError (List Token)
  | _, [], line, col, acc => .ok (acc ++ [⟨.EOF, .vNone, line, col⟩])
  | 0, _ :: _, _, _, _ => .error (.lexicalError "lexer fuel exhausted")
  | fuel + 1, c :: rest, line, col, acc =>
    if c = ' ' ∨ c = '\t' ∨ c = '\r' then
      tokenizeAux fuel rest line (col + 1) acc
    else if c = '/' ∧ rest.head? = some '/' then
      -- skip_comment: consume until a newline or end of input
      tokenizeAux fuel (rest.dropWhile (fun d => d ≠ '\n')) line
        (col + 1 + (rest.takeWhile (fun d => d ≠ '\n')).length) acc
    else if c = '\n' then
      tokenizeAux fuel rest (line + 1) 1 acc
    else if c.isDigit then
      let numCs := c :: rest.takeWhile isNumChar
      match numberValue numCs with
      | .error e => .error e
      | .ok v =>
        tokenizeAux fuel (rest.dropWhile isNumChar) line (col + numCs.length)
          (acc ++ [⟨.NUMBER, v, line, col⟩])
    else if c.isAlpha ∨ c = '_' then
      let idCs := c :: rest.takeWhile isIdentChar
      let idStr := String.mk idCs
      let tt := (keywordType idStr).getD .IDENTIFIER
      tokenizeAux fuel (rest.dropWhile isIdentChar) line (col + idCs.length)
        (acc ++ [⟨tt, .vStr idStr, line, col⟩])
    else if c = '=' ∧ rest.head? = some '=' then
      tokenizeAux fuel (rest.drop 1) line (col + 2)
        (acc ++ [⟨.EQUAL, .vStr "==", line, col⟩])
    else if c = '!' ∧ rest.head? = some '=' then
      tokenizeAux fuel (rest.drop 1) line (col + 2)
        (acc ++ [⟨.NOT_EQUAL, .vStr "!=", line, col⟩])
    else if c = '<' ∧ rest.head? = some '=' then
      tokenizeAux fuel (rest.drop 1) line (col + 2)
        (acc ++ [⟨.LESS_EQUAL, .vStr "<=", line, col⟩])
    else if c = '>' ∧ rest.head? = some '=' then
      tokenizeAux fuel (rest.drop 1) line (col + 2)
        (acc ++ [⟨.GREATER_EQUAL, .vStr ">=", line, col⟩])
    else
      match singleCharToken c with
      | some tt =>
        tokenizeAux fuel rest line (col + 1)
          (acc ++ [⟨tt, .vStr (String.mk [c]), line, col⟩])
      | none =>
        .error (.lexicalError ("Caracter no reconocido '" ++ String.mk [c] ++
          "' en linea " ++ natToStr line ++ ", columna " ++ natToStr col))

/-- Lexer.tokenize: scan a whole source string. -/
def tokenize (source : String) : Except LexError (List Token) :=
  tokenizeAux source.data.length source.data 1 1 []

/-! ## AST and parser (sintactico.py) -/

/-- Expression-shaped AST nodes from sintactico.py. -/
inductive Expr where
  | binOp (operator : String) (left right : Expr) (line : Nat)
  | unaryOp (operator : String) (operand : Expr) (line : Nat)
  | number (value : NumVal) (line : Nat)
  | ident (name : String) (line : Nat)
deriving DecidableEq, Repr

/-- Statement-shaped AST nodes from sintactico.py. -/
inductive Stmt where
  | varDecl (identifier : String) (line : Nat)
  | assign (identifier : String) (expression : Expr) (line : Nat)
  | ifStmt (condition : Expr) (thenBlock : List Stmt)
      (elseBlock : Option (List Stmt)) (line : Nat)
  | whileStmt (condition : Expr) (body : List Stmt) (line : Nat)
  | printStmt (expression : Expr) (line : Nat)

/-- ProgramNode. -/
structure ProgramNode where
  statements : List Stmt

/-- A token's value read as a string (operator lexemes, identifier
names); Python accesses token.value directly, which for those token
kinds always holds a string. -/
def tokValueAsStr : TokValue → String
  | .vStr s => s
  | _ => ""

/-- A NUMBER token's value; Python accesses token.value directly,
which for NUMBER always holds the numeric value. -/
def tokValueAsNum : TokValue → NumVal
  | .vNum v => v
  | _ => .i 0

/-- Parser.expect: consume the current token when its type matches,
else raise SyntaxError. -/
def expect (tt : TokenType) (toks : List Token) :
    Except String (Token × List Token) :=
  match toks with
  | [] => .error ("Se esperaba " ++ tokenTypeName tt ++
      " pero se llego al final del archivo")
  | t :: rest =>
    if t.type = tt then .ok (t, rest)
    else .error ("Se esperaba " ++ tokenTypeName tt ++ " pero se encontro " ++
      tokenTypeName t.type ++ " en linea " ++ natToStr t.line ++
      ", columna " ++ natToStr t.column)

/-- Comparison-operator token types (parse_comparison's loop set). -/
def isComparisonOp (tt : TokenType) : Bool :=
  tt = .LESS_THAN ∨ tt = .GREATER_THAN ∨ tt = .LESS_EQUAL ∨
  tt = .GREATER_EQUAL ∨ tt = .EQUAL ∨ tt = .NOT_EQUAL

mutual

/-- Parser.parse_statement: dispatch on the leading token kind. -/
def parseStatement : Nat → List Token → Except String (Stmt × List Token)
  | 0, _ => .error "parser fuel exhausted"
  | fuel + 1, toks =>
    match toks with
    | [] => .error "AttributeError: NoneType has no attribute type"
    | t :: _ =>
      if t.type = .VAR then parseVarDeclaration fuel toks
      else if t.type = .IF then parseIfStatement fuel toks
      else if t.type = .WHILE then parseWhileStatement fuel toks
      else if t.type = .PRINT then parsePrintStatement fuel toks
      else if t.type = .IDENTIFIER then parseAssignment fuel toks
      else .error ("Sentencia no esperada: " ++ tokenTypeName t.type ++
        " en linea " ++ natToStr t.line)

/-- Parser.parse_var_declaration. -/
def parseVarDeclaration : Nat → List Token → Except String (Stmt × List Token)
  | 0, _ => .error "parser fuel exhausted"
  | _ + 1, toks => do
    let line := (toks.head?.map Token.line).getD 0
    let (_, toks) ← expect .VAR toks
    let (idTok, toks) ← expect .IDENTIFIER toks
    let (_, toks) ← expect .SEMICOLON toks
    .ok (.varDecl (tokValueAsStr idTok.value) line, toks)

/-- Parser.parse_assignment. -/
def parseAssignment : Nat → List Token → Except String (Stmt × List Token)
  | 0, _ => .error "parser fuel exhausted"
  | fuel + 1, toks => do
    let line := (toks.head?.map Token.line).getD 0
    let (idTok, toks) ← expect .IDENTIFIER toks
    let (_, toks) ← expect .ASSIGN toks
    let (e, toks) ← parseExpression fuel toks
    let (_, toks) ← expect .SEMICOLON toks
    .ok (.assign (tokValueAsStr idTok.value) e line, toks)

/-- Parser.parse_if_statement. -/
def parseIfStatement : Nat → List Token → Except String (Stmt × List Token)
  | 0, _ => .error "parser fuel exhausted"
  | fuel + 1, toks => do
    let line := (toks.head?.map Token.line).getD 0
    let (_, toks) ← expect .IF toks
    let (_, toks) ← expect .LPAREN toks
    let (cond, toks) ← parseExpression fuel toks
    let (_, toks) ← expect .RPAREN toks
    let (_, toks) ← expect .LBRACE toks
    let (thenB, toks) ← parseBlock fuel toks
    let (_, toks) ← expect .RBRACE toks
    match toks with
    | t :: rest =>
      if t.type = .ELSE then do
        let (_, toks2) ← expect .LBRACE rest
        let (elseB, toks2) ← parseBlock fuel toks2
        let (_, toks2) ← expect .RBRACE toks2
        .ok (.ifStmt cond thenB (some elseB) line, toks2)
      else .ok (.ifStmt cond thenB none line, toks)
    | [] => .ok (.ifStmt cond thenB none line, toks)

/-- Parser.parse_while_statement. -/
def parseWhileStatement : Nat → List Token → Except String (Stmt × List Token)
  | 0, _ => .error "parser fuel exhausted"
  | fuel + 1, toks => do
    let line := (toks.head?.map Token.line).getD 0
    let (_, toks) ← expect .WHILE toks
    let (_, toks) ← expect .LPAREN toks
    let (cond, toks) ← parseExpression fuel toks
    let (_, toks) ← expect .RPAREN toks
    let (_, toks) ← expect .LBRACE toks
    let (body, toks) ← parseBlock fuel toks
    let (_, toks) ← expect .RBRACE toks
    .ok (.whileStmt cond body line, toks)

/-- Parser.parse_print_statement. -/
def parsePrintStatement : Nat → List Token → Except String (Stmt × List Token)
  | 0, _ => .error "parser fuel exhausted"
  | fuel + 1, toks => do
    let line := (toks.head?.map Token.line).getD 0
    let (_, toks) ← expect .PRINT toks
    let (_, toks) ← expect .LPAREN toks
    let (e, toks) ← parseExpression fuel toks
    let (_, toks) ← expect .RPAREN toks
    let (_, toks) ← expect .SEMICOLON toks
    .ok (.printStmt e line, toks)

/-- The statement loop inside parse_if/parse_while: gather statements
until the closing brace (or end of input). -/
def parseBlock : Nat → List Token → Except String (List Stmt × List Token)
  | 0, _ => .error "parser fuel exhausted"
  | fuel + 1, toks =>
    match toks with
    | [] => .ok ([], [])
    | t :: _ =>
      if t.type = .RBRACE then .ok ([], toks)
      else do
        let (s, toks2) ← parseStatement fuel toks
        let (ss, toks3) ← parseBlock fuel toks2
        .ok (s :: ss, toks3)

/-- Parser.parse_expression. -/
def parseExpression : Nat → List Token → Except String (Expr × List Token)
  | 0, _ => .error "parser fuel exhausted"
  | fuel + 1, toks => parseComparison fuel toks

/-- Parser.parse_comparison. -/
def parseComparison : Nat → List Token → Except String (Expr × List Token)
  | 0, _ => .error "parser fuel exhausted"
  | fuel + 1, toks => do
    let (node, toks) ← parseTerm fuel toks
    parseComparisonLoop fuel node toks

def parseComparisonLoop : Nat → Expr → List Token →
    Except String (Expr × List Token)
  | 0, _, _ => .error "parser fuel exhausted"
  | fuel + 1, node, toks =>
    match toks with
    | [] => .ok (node, toks)
    | t :: rest =>
      if isComparisonOp t.type then do
        let (right, toks2) ← parseTerm fuel rest
        parseComparisonLoop fuel
          (.binOp (tokValueAsStr t.value) node right t.line) toks2
      else .ok (node, toks)

/-- Parser.parse_term (additive level). -/
def parseTerm : Nat → List Token → Except String (Expr × List Token)
  | 0, _ => .error "parser fuel exhausted"
  | fuel + 1, toks => do
    let (node, toks) ← parseFactor fuel toks
    parseTermLoop fuel node toks

def parseTermLoop : Nat → Expr → List Token → Except String (Expr × List Token)
  | 0, _, _ => .error "parser fuel exhausted"
  | fuel + 1, node, toks =>
    match toks with
    | [] => .ok (node, toks)
    | t :: rest =>
      if t.type = .PLUS ∨ t.type = .MINUS then do
        let (right, toks2) ← parseFactor fuel rest
        parseTermLoop fuel
          (.binOp (tokValueAsStr t.value) node right t.line) toks2
      else .ok (node, toks)

/-- Parser.parse_factor (multiplicative level). -/
def parseFactor : Nat → List Token → Except String (Expr × List Token)
  | 0, _ => .error "parser fuel exhausted"
  | fuel + 1, toks => do
    let (node, toks) ← parseUnary fuel toks
    parseFactorLoop fuel node toks

def parseFactorLoop : Nat → Expr → List Token →
    Except String (Expr × List Token)
  | 0, _, _ => .error "parser fuel exhausted"
  | fuel + 1, node, toks =>
    match toks with
    | [] => .ok (node, toks)
    | t :: rest =>
      if t.type = .MULTIPLY ∨ t.type = .DIVIDE then do
        let (right, toks2) ← parseUnary fuel rest
        parseFactorLoop fuel
          (.binOp (tokValueAsStr t.value) node right t.line) toks2
      else .ok (node, toks)

/-- Parser.parse_unary. -/
def parseUnary : Nat → List Token → Except String (Expr × List Token)
  | 0, _ => .error "parser fuel exhausted"
  | fuel + 1, toks =>
    match toks with
    | t :: rest =>
      if t.type = .PLUS ∨ t.type = .MINUS then do
        let (operand, toks2) ← parseUnary fuel rest
        .ok (.unaryOp (tokValueAsStr t.value) operand t.line, toks2)
      else parsePrimary fuel toks
    | [] => parsePrimary fuel toks

/-- Parser.parse_primary. -/
def parsePrimary : Nat → List Token → Except String (Expr × List Token)
  | 0, _ => .error "parser fuel exhausted"
  | fuel + 1, toks =>
    match toks with
    | [] => .error "AttributeError: NoneType has no attribute type"
    | t :: rest =>
      if t.type = .NUMBER then
        .ok (.number (tokValueAsNum t.value) t.line, rest)
      else if t.type = .IDENTIFIER then
        .ok (.ident (tokValueAsStr t.value) t.line, rest)
      else if t.type = .LPAREN then do
        let (node, toks2) ← parseExpression fuel rest
        let (_, toks2) ← expect .RPAREN toks2
        .ok (node, toks2)
      else
        .error ("Token inesperado: " ++ tokenTypeName t.type ++
          " en linea " ++ natToStr t.line)

end

/-- The top-level statement loop of Parser.parse: parse statements
until the EOF sentinel. -/
def parseTopLoop : Nat → List Token → Except String (List Stmt × List Token)
  | 0, _ => .error "parser fuel exhausted"
  | fuel + 1, toks =>
    match toks with
    | [] => .ok ([], [])
    | t :: _ =>
      if t.type = .EOF then .ok ([], toks)
      else do
        let (s, toks2) ← parseStatement fuel toks
        let (ss, toks3) ← parseTopLoop fuel toks2
        .ok (s :: ss, toks3)

/-- Parser.parse.  The fuel bounds the recursion depth of the
descent; `8 * length + 8` strictly exceeds any depth the grammar can
reach on the given token list, so the fuel-exhaustion branch is
unreachable. -/
def parse (toks : List Token) : Except String ProgramNode := do
  let (ss, _) ← parseTopLoop (8 * toks.length + 8) toks
  .ok ⟨ss⟩

/-! ## Symbol table (tabla_simbolos.py)

The Python class keeps the dict `symbols` (insertion-ordered, embedded
here as a list unique in names) and a vestigial `scopes` stack that no
operation reads; the stack is omitted. -/

inductive SymbolType where
  | VARIABLE | CONSTANT
deriving DecidableEq, Repr

structure Symbol where
  name : String
  symbol_type : SymbolType
  data_type : Option String := none
  value : Option NumVal := none
  line : Nat := 0
  initialized : Bool := false
  used : Bool := false
deriving DecidableEq, Repr

/-- The insertion-ordered `symbols` dict. -/
def SymTab := List Symbol

/-- SymbolTable.lookup. -/
def lookupSym (t : List Symbol) (n : String) : Option Symbol :=
  t.find? (fun s => s.name = n)

/-- SymbolTable.exists. -/
def existsSym (t : List Symbol) (n : String) : Bool :=
  (lookupSym t n).isSome

/-- SymbolTable.declare: raises (as an error message) when the name is
already present, else inserts at the end with initialized tracking
whether a value was supplied. -/
def declare (t : List Symbol) (name : String) (stype : SymbolType)
    (line : Nat) (dataType : Option String) (val : Option NumVal) :
    Except String (List Symbol) :=
  match lookupSym t name with
  | some existing =>
    .error ("Error semantico: Variable '" ++ name ++ "' ya declarada en linea "
      ++ natToStr existing.line ++ ". Redeclaracion en linea "
      ++ natToStr line ++ ".")
  | none =>
    .ok (t ++ [{ name := name, symbol_type := stype, data_type := dataType,
                 value := val, line := line, initialized := val.isSome,
                 used := false }])

/-- SymbolTable.mark_as_used. -/
def mark_as_used (t : List Symbol) (n : String) : Except String (List Symbol) :=
  if existsSym t n then
    .ok (t.map fun s => if s.name = n then { s with used := true } else s)
  else .error ("Error semantico: Variable '" ++ n ++ "' no declarada.")

/-- SymbolTable.mark_as_initialized. -/
def mark_as_initialized (t : List Symbol) (n : String) :
    Except String (List Symbol) :=
  if existsSym t n then
    .ok (t.map fun s => if s.name = n then { s with initialized := true } else s)
  else .error ("Error semantico: Variable '" ++ n ++ "' no declarada.")

/-- SymbolTable.get_warnings: per symbol in insertion order, a
never-used warning and/or a used-but-maybe-uninitialized warning. -/
def get_warnings (t : List Symbol) : List String :=
  t.flatMap fun s =>
    (if ¬s.used then
      ["Advertencia: Variable '" ++ s.name ++ "' declarada en linea "
        ++ natToStr s.line ++ " pero nunca usada."]
     else []) ++
    (if s.used ∧ ¬s.initialized then
      ["Advertencia: Variable '" ++ s.name ++ "' usada en el programa "
        ++ "pero podria no estar inicializada (declarada en linea "
        ++ natToStr s.line ++ ")."]
     else [])

/-! ## Semantic analyzer (semantico.py) -/

/-- The Python exceptions the analyzer deals in: SemanticError, or any
other exception (generic Exception, AttributeError, ...), carrying
str(e). -/
inductive PyExn where
  | semanticError (msg : String)
  | otherExn (msg : String)
deriving DecidableEq, Repr

/-- The mutable fields of a SemanticAnalyzer instance. -/
structure AnalyzerState where
  symbols : List Symbol
  errors : List String
  warnings : List String
deriving DecidableEq, Repr

/-- A fresh SemanticAnalyzer (its __init__). -/
def freshAnalyzer : AnalyzerState := ⟨[], [], []⟩

/-- Python's `t in ['int', 'float', None]` check used on operand types. -/
def numericOk (t : Option String) : Bool :=
  t = some "int" ∨ t = some "float" ∨ t = none

/-- Truthiness of an optional statement list: Python's
`if node.else_block:` is false both for None and for an empty list. -/
def blockTruthy : Option (List Stmt) → Bool
  | some (_ :: _) => true
  | _ => false

/-- Expression visitors (visit_BinaryOpNode, visit_UnaryOpNode,
visit_NumberNode, visit_IdentifierNode): return the inferred type
(None encodes Python's None) and the updated analyzer state; internal
symbol-table failures escape as exceptions. -/
def visitExpr : Expr → AnalyzerState → Except PyExn (Option String × AnalyzerState)
  | .number v _, st =>
    match v with
    | .i _ => .ok (some "int", st)
    | .f _ => .ok (some "float", st)
  | .ident name line, st =>
    if ¬existsSym st.symbols name then
      .ok (none, { st with errors := st.errors ++
        ["Error semantico (linea " ++ natToStr line ++ "): Variable '"
          ++ name ++ "' no declarada."] })
    else
      match mark_as_used st.symbols name with
      | .error m => .error (.otherExn m)
      | .ok t' =>
        match lookupSym t' name with
        | none => .error (.otherExn
            "AttributeError: 'NoneType' object has no attribute 'initialized'")
        | some sym =>
          let st' := { st with symbols := t' }
          let st'' :=
            if ¬sym.initialized then
              { st' with warnings := st'.warnings ++
                ["Advertencia (linea " ++ natToStr line ++ "): Variable '"
                  ++ name ++ "' podria no estar inicializada."] }
            else st'
          .ok (sym.data_type, st'')
  | .binOp op l r line, st => do
    let (lt, st1) ← visitExpr l st
    let (rt, st2) ← visitExpr r st1
    if op = "+" ∨ op = "-" ∨ op = "*" ∨ op = "/" then
      if numericOk lt ∧ numericOk rt then
        .ok (some (if lt = some "float" ∨ rt = some "float" then "float"
                   else "int"), st2)
      else
        .ok (none, { st2 with errors := st2.errors ++
          ["Error semantico (linea " ++ natToStr line ++ "): Operador '"
            ++ op ++ "' requiere operandos numericos."] })
    else if op = "==" ∨ op = "!=" ∨ op = "<" ∨ op = ">" ∨ op = "<=" ∨ op = ">=" then
      if numericOk lt ∧ numericOk rt then
        .ok (some "bool", st2)
      else
        .ok (none, { st2 with errors := st2.errors ++
          ["Error semantico (linea " ++ natToStr line ++ "): Operador '"
            ++ op ++ "' requiere operandos comparables."] })
    else
      .ok (none, st2)
  | .unaryOp op operand line, st => do
    let (t, st1) ← visitExpr operand st
    if op = "+" ∨ op = "-" then
      if numericOk t then .ok (t, st1)
      else
        .ok (none, { st1 with errors := st1.errors ++
          ["Error semantico (linea " ++ natToStr line ++ "): Operador unario '"
            ++ op ++ "' requiere operando numerico."] })
    else
      .ok (none, st1)

mutual

/-- Statement visitors (visit_VarDeclarationNode, visit_AssignmentNode,
visit_IfNode, visit_WhileNode, visit_PrintNode). -/
def visitStmt : Stmt → AnalyzerState → Except PyExn AnalyzerState
  | .varDecl identifier line, st =>
    -- visit_VarDeclarationNode catches every exception from declare
    -- and records str(e) as a collected error
    match declare st.symbols identifier .VARIABLE line none none with
    | .error m => .ok { st with errors := st.errors ++ [m] }
    | .ok t' => .ok { st with symbols := t' }
  | .assign identifier e line, st =>
    if ¬existsSym st.symbols identifier then
      .ok { st with errors := st.errors ++
        ["Error semantico (linea " ++ natToStr line ++ "): Variable '"
          ++ identifier ++ "' no declarada."] }
    else do
      let (_, st1) ← visitExpr e st
      match mark_as_initialized st1.symbols identifier with
      | .error m => .error (.otherExn m)
      | .ok t' => .ok { st1 with symbols := t' }
  | .ifStmt cond thenB elseB _, st => do
    let (_, st1) ← visitExpr cond st
    let st2 ← visitStmts thenB st1
    match elseB with
    | some es => if blockTruthy (some es) then visitStmts es st2 else .ok st2
    | none => .ok st2
  | .whileStmt cond body _, st => do
    let (_, st1) ← visitExpr cond st
    visitStmts body st1
  | .printStmt e _, st => do
    let (_, st1) ← visitExpr e st
    .ok st1

/-- The statement-sequence walk of visit_ProgramNode / block bodies. -/
def visitStmts : List Stmt → AnalyzerState → Except PyExn AnalyzerState
  | [], st => .ok st
  | s :: ss, st => do
    let st1 ← visitStmt s st
    visitStmts ss st1

end

/-- "\n".join. -/
def joinLines : List String → String
  | [] => ""
  | [s] => s
  | s :: rest => s ++ "\n" ++ joinLines rest

/-- The exception handlers at the end of SemanticAnalyzer.analyze:
a SemanticError is re-raised unchanged; any other exception is wrapped
into a SemanticError with the fixed prefix. -/
def analyzeHandler : PyExn → PyExn
  | .semanticError m => .semanticError m
  | .otherExn m =>
    .semanticError ("Error durante el analisis semantico: " ++ m)

/-- SemanticAnalyzer.analyze run from a given instance state: reset
errors and warnings, walk the AST, extend warnings with the table
warnings, and either return the symbol table or raise the aggregated
(or wrapped) SemanticError. -/
def analyzeFrom (st0 : AnalyzerState) (ast : ProgramNode) :
    Except PyExn (List Symbol) :=
  match visitStmts ast.statements { st0 with errors := [], warnings := [] } with
  | .error e => .error (analyzeHandler e)
  | .ok st =>
    let st := { st with warnings := st.warnings ++ get_warnings st.symbols }
    if st.errors = [] then .ok st.symbols
    else .error (analyzeHandler (.semanticError
      ("Se encontraron errores semanticos:\n" ++ joinLines st.errors)))

/-- analyze on a fresh SemanticAnalyzer, as the pipeline driver uses it. -/
def analyze (ast : ProgramNode) : Except PyExn (List Symbol) :=
  analyzeFrom freshAnalyzer ast

/-- The analyzer instance state after the traversal (the object's
fields are observable even when analyze raises); the error branch
keeps the state at the point of the raise. -/
def runVisit (ast : ProgramNode) : Except PyExn AnalyzerState :=
  visitStmts ast.statements freshAnalyzer

/-! ## Intermediate code generator (codigo_intermedio.py) -/

/-- A ThreeAddressCode instruction. -/
structure TAC where
  op : String
  arg1 : Option String := none
  arg2 : Option String := none
  result : Option String := none
deriving DecidableEq, Repr

/-- The mutable fields of an IntermediateCodeGenerator instance. -/
structure GenState where
  code : List TAC
  temp_counter : Nat
  label_counter : Nat
deriving DecidableEq, Repr

/-- new_temp: f"t{temp_counter}", then increment. -/
def newTemp (s : GenState) : String × GenState :=
  ("t" ++ natToStr s.temp_counter, { s with temp_counter := s.temp_counter + 1 })

/-- new_label: f"L{label_counter}", then increment. -/
def newLabel (s : GenState) : String × GenState :=
  ("L" ++ natToStr s.label_counter,
   { s with label_counter := s.label_counter + 1 })

/-- emit: append an instruction to the buffer. -/
def emit (s : GenState) (op : String) (arg1 arg2 result : Option String) :
    GenState :=
  { s with code := s.code ++ [⟨op, arg1, arg2, result⟩] }

/-- str(node.value) in visit_NumberNode.  Integers render in decimal;
for a float value Python prints the shortest round-trip repr of the
parsed double, which no claim in scope observes, so the literal text
stands in for it. -/
def numValStr : NumVal → String
  | .i n => natToStr n
  | .f lit => lit

/-- Expression lowering (visit_BinaryOpNode, visit_UnaryOpNode,
visit_NumberNode, visit_IdentifierNode): returns the operand name
holding the value. -/
def genExpr : Expr → GenState → String × GenState
  | .number v _, s => (numValStr v, s)
  | .ident name _, s => (name, s)
  | .binOp op l r _, s =>
    let (lr, s1) := genExpr l s
    let (rr, s2) := genExpr r s1
    let (t, s3) := newTemp s2
    (t, emit s3 op (some lr) (some rr) (some t))
  | .unaryOp op operand _, s =>
    let (orr, s1) := genExpr operand s
    let (t, s2) := newTemp s1
    if op = "-" then (t, emit s2 "UNARY_MINUS" (some orr) none (some t))
    else if op = "+" then (t, emit s2 "UNARY_PLUS" (some orr) none (some t))
    else (t, s2)

mutual

/-- Statement lowering (visit_VarDeclarationNode, visit_AssignmentNode,
visit_IfNode, visit_WhileNode, visit_PrintNode). -/
def genStmt : Stmt → GenState → GenState
  | .varDecl _ _, s => s
  | .assign identifier e _, s =>
    let (r, s1) := genExpr e s
    emit s1 "ASSIGN" (some r) none (some identifier)
  | .ifStmt cond thenB elseB _, s =>
    let (c, s1) := genExpr cond s
    let (lElse, s2) := newLabel s1
    let (lEnd, s3) := newLabel s2
    let s4 := emit s3 "IF_FALSE" (some c) none (some lElse)
    let s5 := genStmts thenB s4
    let s6 := emit s5 "GOTO" none none (some lEnd)
    let s7 := emit s6 "LABEL" none none (some lElse)
    let s8 :=
      match elseB with
      | some es => if blockTruthy (some es) then genStmts es s7 else s7
      | none => s7
    emit s8 "LABEL" none none (some lEnd)
  | .whileStmt cond body _, s =>
    let (lStart, s1) := newLabel s
    let (lEnd, s2) := newLabel s1
    let s3 := emit s2 "LABEL" none none (some lStart)
    let (c, s4) := genExpr cond s3
    let s5 := emit s4 "IF_FALSE" (some c) none (some lEnd)
    let s6 := genStmts body s5
    let s7 := emit s6 "GOTO" none none (some lStart)
    emit s7 "LABEL" none none (some lEnd)
  | .printStmt e _, s =>
    let (r, s1) := genExpr e s
    emit s1 "PRINT" (some r) none none

/-- The statement-sequence walk of visit_ProgramNode / block bodies. -/
def genStmts : List Stmt → GenState → GenState
  | [], s => s
  | st :: ss, s => genStmts ss (genStmt st s)

end

/-- IntermediateCodeGenerator.generate: reset the buffer and both
counters, walk the AST, return the instruction list. -/
def generate (ast : ProgramNode) : List TAC :=
  (genStmts ast.statements ⟨[], 0, 0⟩).code

/-! ## Pipeline driver (compilador.py) -/

/-- The mutable fields of a Compiler instance (its __init__). -/
structure CompilerState where
  source_code : String
  tokens : List Token
  ast : Option ProgramNode
  symbol_table : Option (List Symbol)
  intermediate_code : List TAC

/-- A fresh Compiler object. -/
def initCompiler : CompilerState :=
  { source_code := "", tokens := [], ast := none, symbol_table := none,
    intermediate_code := [] }

/-- Compiler.compile: run the four stages in order, assigning each
artifact field as its stage completes; every error handler returns
False and leaves the remaining fields as they were. -/
def compile (st : CompilerState) (source : String) : CompilerState × Bool :=
  let st := { st with source_code := source }
  match tokenize source with
  | .error _ => (st, false)
  | .ok tks =>
    let st := { st with tokens := tks }
    match parse tks with
    | .error _ => (st, false)
    | .ok ast =>
      let st := { st with ast := some ast }
      match analyze ast with
      | .error _ => (st, false)
      | .ok table =>
        let st := { st with symbol_table := some table }
        let st := { st with intermediate_code := generate ast }
        (st, true)

/-- End-to-end convenience: the IR a source string compiles to (the
composition the concrete spec scenarios quote). -/
def pipelineIR (source : String) : Except String (List TAC) :=
  match tokenize source with
  | .error _ => .error "LexicalError/ValueError"
  | .ok tks =>
    match parse tks with
    | .error m => .error m
    | .ok ast =>
      match analyze ast with
      | .error _ => .error "SemanticError"
      | .ok _ => .ok (generate ast)

/-- Parse a source string (None when lexing or parsing fails). -/
def parseSource (source : String) : Option ProgramNode :=
  match tokenize source with
  | .error _ => none
  | .ok tks =>
    match parse tks with
    | .error _ => none
    | .ok ast => some ast

/-! ## Emission deltas of the generator

`genExpr`/`genStmt` mutate an instruction buffer.  The functions below
compute, from the counters alone, the block of instructions a node
appends, its result operand, and the updated counters; the frame
theorems `genExpr_eq`, `genStmt_eq`, `genStmts_eq` prove that the
stateful visitors append exactly these deltas.  The emission-order
claims are stated against these shapes. -/

/-- Result operand, emitted instructions and updated temp counter of an
expression lowering. -/
def exprGenD : Expr → Nat → String × List TAC × Nat
  | .number v _, t => (numValStr v, [], t)
  | .ident name _, t => (name, [], t)
  | .binOp op l r _, t =>
    let (lr, dl, t1) := exprGenD l t
    let (rr, dr, t2) := exprGenD r t1
    let tmp := "t" ++ natToStr t2
    (tmp, dl ++ dr ++ [⟨op, some lr, some rr, some tmp⟩], t2 + 1)
  | .unaryOp op operand _, t =>
    let (orr, dO, t1) := exprGenD operand t
    let tmp := "t" ++ natToStr t1
    if op = "-" then (tmp, dO ++ [⟨"UNARY_MINUS", some orr, none, some tmp⟩], t1 + 1)
    else if op = "+" then (tmp, dO ++ [⟨"UNARY_PLUS", some orr, none, some tmp⟩], t1 + 1)
    else (tmp, dO, t1 + 1)

mutual

/-- Emitted instructions and updated counters of a statement lowering. -/
def stmtGenD : Stmt → Nat → Nat → List TAC × Nat × Nat
  | .varDecl _ _, t, l => ([], t, l)
  | .assign identifier e _, t, l =>
    let (r, d, t1) := exprGenD e t
    (d ++ [⟨"ASSIGN", some r, none, some identifier⟩], t1, l)
  | .ifStmt cond thenB elseB _, t, l =>
    let (c, d, t1) := exprGenD cond t
    let lElse := "L" ++ natToStr l
    let lEnd := "L" ++ natToStr (l + 1)
    let (dThen, t2, l2) := stmtsGenD thenB t1 (l + 2)
    let (dElse, t3, l3) :=
      match elseB with
      | some (e1 :: es) => stmtsGenD (e1 :: es) t2 l2
      | _ => ([], t2, l2)
    (d ++ [⟨"IF_FALSE", some c, none, some lElse⟩] ++ dThen
       ++ [⟨"GOTO", none, none, some lEnd⟩]
       ++ [⟨"LABEL", none, none, some lElse⟩] ++ dElse
       ++ [⟨"LABEL", none, none, some lEnd⟩], t3, l3)
  | .whileStmt cond body _, t, l =>
    let lStart := "L" ++ natToStr l
    let lEnd := "L" ++ natToStr (l + 1)
    let (c, d, t1) := exprGenD cond t
    let (dBody, t2, l2) := stmtsGenD body t1 (l + 2)
    ([⟨"LABEL", none, none, some lStart⟩] ++ d
       ++ [⟨"IF_FALSE", some c, none, some lEnd⟩] ++ dBody
       ++ [⟨"GOTO", none, none, some lStart⟩]
       ++ [⟨"LABEL", none, none, some lEnd⟩], t2, l2)
  | .printStmt e _, t, l =>
    let (r, d, t1) := exprGenD e t
    (d ++ [⟨"PRINT", some r, none, none⟩], t1, l)

/-- Delta of a statement sequence. -/
def stmtsGenD : List Stmt → Nat → Nat → List TAC × Nat × Nat
  | [], t, l => ([], t, l)
  | s :: ss, t, l =>
    let (d1, t1, l1) := stmtGenD s t l
    let (d2, t2, l2) := stmtsGenD ss t1 l1
    (d1 ++ d2, t2, l2)

end

theorem genExpr_eq (e : Expr) : ∀ (c : List TAC) (t l : Nat),
    genExpr e ⟨c, t, l⟩ =
      ((exprGenD e t).1,
       ⟨c ++ (exprGenD e t).2.1, (exprGenD e t).2.2, l⟩) := by
  induction e with
  | number v line => intro c t l; simp [genExpr, exprGenD]
  | ident name line => intro c t l; simp [genExpr, exprGenD]
  | binOp op left right line ihl ihr =>
    intro c t l
    rcases hL : exprGenD left t with ⟨lr, dl, t1⟩
    rcases hR : exprGenD right t1 with ⟨rr, dr, t2⟩
    simp only [genExpr, exprGenD, hL, hR, ihl, ihr, newTemp, emit]
    simp [hL, hR, List.append_assoc]
  | unaryOp op operand line ih =>
    intro c t l
    rcases hO : exprGenD operand t with ⟨orr, dO, t1⟩
    simp only [genExpr, exprGenD, hO, ih, newTemp, emit]
    by_cases h1 : op = "-" <;> by_cases h2 : op = "+" <;>
      simp [h1, h2, hO, List.append_assoc]

mutual

theorem genStmt_eq (s : Stmt) : ∀ (c : List TAC) (t l : Nat),
    genStmt s ⟨c, t, l⟩ =
      ⟨c ++ (stmtGenD s t l).1, (stmtGenD s t l).2.1, (stmtGenD s t l).2.2⟩ :=
  match s with
  | .varDecl identifier line => by
    intro c t l; simp [genStmt, stmtGenD]
  | .assign identifier e line => by
    intro c t l
    rcases hE : exprGenD e t with ⟨r, d, t1⟩
    simp only [genStmt, stmtGenD, genExpr_eq, hE, emit]
    simp [List.append_assoc]
  | .printStmt e line => by
    intro c t l
    rcases hE : exprGenD e t with ⟨r, d, t1⟩
    simp only [genStmt, stmtGenD, genExpr_eq, hE, emit]
    simp [List.append_assoc]
  | .whileStmt cond body line => by
    intro c t l
    rcases hE : exprGenD cond t with ⟨cr, d, t1⟩
    rcases hB : stmtsGenD body t1 (l + 2) with ⟨dBody, t2, l2⟩
    simp only [genStmt, stmtGenD, newLabel, emit, genExpr_eq, hE,
      genStmts_eq body, hB]
    simp [List.append_assoc]
  | .ifStmt cond thenB elseB line => by
    intro c t l
    rcases hE : exprGenD cond t with ⟨cr, d, t1⟩
    rcases hT : stmtsGenD thenB t1 (l + 2) with ⟨dThen, t2, l2⟩
    match elseB with
    | none =>
      simp only [genStmt, stmtGenD, newLabel, emit, genExpr_eq, hE,
        genStmts_eq thenB, hT]
      simp [List.append_assoc]
    | some [] =>
      simp only [genStmt, stmtGenD, newLabel, emit, genExpr_eq, hE,
        genStmts_eq thenB, hT, blockTruthy]
      simp [List.append_assoc]
    | some (e1 :: es) =>
      rcases hEl : stmtsGenD (e1 :: es) t2 l2 with ⟨dElse, t3, l3⟩
      simp only [genStmt, stmtGenD, newLabel, emit, genExpr_eq, hE,
        genStmts_eq thenB, hT, blockTruthy, genStmts_eq (e1 :: es), hEl]
      simp [List.append_assoc]

theorem genStmts_eq (ss : List Stmt) : ∀ (c : List TAC) (t l : Nat),
    genStmts ss ⟨c, t, l⟩ =
      ⟨c ++ (stmtsGenD ss t l).1, (stmtsGenD ss t l).2.1,
       (stmtsGenD ss t l).2.2⟩ :=
  match ss with
  | [] => by intro c t l; simp [genStmts, stmtsGenD]
  | s :: rest => by
    intro c t l
    rcases h1 : stmtGenD s t l with ⟨d1, t1, l1⟩
    rcases h2 : stmtsGenD rest t1 l1 with ⟨d2, t2, l2⟩
    simp only [genStmts, stmtsGenD, genStmt_eq s, h1, genStmts_eq rest, h2]
    simp [List.append_assoc]

end

/-- C3: Lowering an If node emits, in order: the condition's
instructions, `IF_FALSE c → Lelse`, the then-block, `GOTO Lend`,
`LABEL Lelse`, the else-block when present, `LABEL Lend`, with Lelse
allocated before Lend (`Lelse = L(l)`, `Lend = L(l+1)` at label counter
`l`); the `GOTO Lend` is emitted even with no else-block; and the
quoted if/else program compiles to exactly the eight listed
instructions. -/
theorem visit_IfNode_emission :
    (∀ (cond : Expr) (thenB : List Stmt) (elseB : Option (List Stmt))
       (line : Nat) (c : List TAC) (t l : Nat),
       (genStmt (.ifStmt cond thenB elseB line) ⟨c, t, l⟩).code =
         c ++ (exprGenD cond t).2.1
           ++ [⟨"IF_FALSE", some (exprGenD cond t).1, none,
                 some ("L" ++ natToStr l)⟩]
           ++ (stmtsGenD thenB (exprGenD cond t).2.2 (l + 2)).1
           ++ [⟨"GOTO", none, none, some ("L" ++ natToStr (l + 1))⟩]
           ++ [⟨"LABEL", none, none, some ("L" ++ natToStr l)⟩]
           ++ (match elseB with
               | some (e1 :: es) =>
                 (stmtsGenD (e1 :: es)
                   (stmtsGenD thenB (exprGenD cond t).2.2 (l + 2)).2.1
                   (stmtsGenD thenB (exprGenD cond t).2.2 (l + 2)).2.2).1
               | _ => [])
           ++ [⟨"LABEL", none, none, some ("L" ++ natToStr (l + 1))⟩]) ∧
    pipelineIR "var a; a = 1; if (a > 0) { print(1); } else { print(0); }" =
      .ok [⟨"ASSIGN", some "1", none, some "a"⟩,
           ⟨">", some "a", some "0", some "t0"⟩,
           ⟨"IF_FALSE", some "t0", none, some "L0"⟩,
           ⟨"PRINT", some "1", none, none⟩,
           ⟨"GOTO", none, none, some "L1"⟩,
           ⟨"LABEL", none, none, some "L0"⟩,
           ⟨"PRINT", some "0", none, none⟩,
           ⟨"LABEL", none, none, some "L1"⟩] := by
  constructor
  · intro cond thenB elseB line c t l
    rcases hE : exprGenD cond t with ⟨cr, d, t1⟩
    rcases hT : stmtsGenD thenB t1 (l + 2) with ⟨dThen, t2, l2⟩
    match elseB with
    | none =>
      simp only [genStmt_eq, stmtGenD, hE, hT]
      simp [List.append_assoc]
    | some [] =>
      simp only [genStmt_eq, stmtGenD, hE, hT]
      simp [List.append_assoc]
    | some (e1 :: es) =>
      rcases hEl : stmtsGenD (e1 :: es) t2 l2 with ⟨dElse, t3, l3⟩
      simp only [genStmt_eq, stmtGenD, hE, hT, hEl]
      simp [List.append_assoc]
  · rfl

/-- C4: Lowering a While node emits, in order: `LABEL Lstart`, the
condition's instructions, `IF_FALSE c → Lend`, the body, `GOTO Lstart`,
`LABEL Lend`, with Lstart allocated before Lend; and the quoted while
program compiles to exactly the nine listed instructions. -/
theorem visit_WhileNode_emission :
    (∀ (cond : Expr) (body : List Stmt) (line : Nat) (c : List TAC)
       (t l : Nat),
       (genStmt (.whileStmt cond body line) ⟨c, t, l⟩).code =
         c ++ [⟨"LABEL", none, none, some ("L" ++ natToStr l)⟩]
           ++ (exprGenD cond t).2.1
           ++ [⟨"IF_FALSE", some (exprGenD cond t).1, none,
                 some ("L" ++ natToStr (l + 1))⟩]
           ++ (stmtsGenD body (exprGenD cond t).2.2 (l + 2)).1
           ++ [⟨"GOTO", none, none, some ("L" ++ natToStr l)⟩]
           ++ [⟨"LABEL", none, none, some ("L" ++ natToStr (l + 1))⟩]) ∧
    pipelineIR "var i; i = 0; while (i < 3) { print(i); i = i + 1; }" =
      .ok [⟨"ASSIGN", some "0", none, some "i"⟩,
           ⟨"LABEL", none, none, some "L0"⟩,
           ⟨"<", some "i", some "3", some "t0"⟩,
           ⟨"IF_FALSE", some "t0", none, some "L1"⟩,
           ⟨"PRINT", some "i", none, none⟩,
           ⟨"+", some "i", some "1", some "t1"⟩,
           ⟨"ASSIGN", some "t1", none, some "i"⟩,
           ⟨"GOTO", none, none, some "L0"⟩,
           ⟨"LABEL", none, none, some "L1"⟩] := by
  constructor
  · intro cond body line c t l
    rcases hE : exprGenD cond t with ⟨cr, d, t1⟩
    rcases hB : stmtsGenD body t1 (l + 2) with ⟨dBody, t2, l2⟩
    simp only [genStmt_eq, stmtGenD, hE, hB]
    simp [List.append_assoc]
  · rfl

/-- C7: `var a; a = -(1 + 2) * 3;` parses with unary minus binding
tighter than `*` and looser than the parenthesized sum, and lowers to
exactly the four listed instructions with temporaries t0, t1, t2 in
emission order. -/
theorem unary_precedence_example :
    parseSource "var a; a = -(1 + 2) * 3;" =
      some ⟨[.varDecl "a" 1,
             .assign "a"
               (.binOp "*"
                 (.unaryOp "-"
                   (.binOp "+" (.number (.i 1) 1) (.number (.i 2) 1) 1) 1)
                 (.number (.i 3) 1) 1)
               1]⟩ ∧
    pipelineIR "var a; a = -(1 + 2) * 3;" =
      .ok [⟨"+", some "1", some "2", some "t0"⟩,
           ⟨"UNARY_MINUS", some "t0", none, some "t1"⟩,
           ⟨"*", some "t1", some "3", some "t2"⟩,
           ⟨"ASSIGN", some "t2", none, some "a"⟩] := by
  constructor
  · rfl
  · rfl

/-! ## Lexer error behavior (C1) -/

/-- C1 counterexample: tokenizing "3." raises nothing at all — a token
stream is returned, with "3." accepted as a float-valued NUMBER token —
so the claimed LexicalError for a trailing dot does not happen. -/
theorem trailing_dot_returns_token_stream :
    tokenize "3." =
      .ok [⟨.NUMBER, .vNum (.f "3."), 1, 1⟩, ⟨.EOF, .vNone, 1, 3⟩] := rfl

/-- C1 amended: read_number performs no validation.  A number lexeme
with a single dot (even a trailing one, as in "3.") is accepted as a
float and tokenize returns a token stream; a lexeme with two or more
dots (as in "3.14.5") makes float() raise a ValueError — not a
LexicalError — which escapes tokenize. -/
theorem read_number_malformed_behavior :
    tokenize "3." =
      .ok [⟨.NUMBER, .vNum (.f "3."), 1, 1⟩, ⟨.EOF, .vNone, 1, 3⟩] ∧
    tokenize "3.14.5" = .error (.valueError "3.14.5") ∧
    (∀ cs : List Char, 2 ≤ cs.count '.' →
      numberValue cs = .error (.valueError (String.mk cs))) := by
  refine ⟨rfl, rfl, ?_⟩
  intro cs h
  have hmem : '.' ∈ cs := by
    by_contra hn
    rw [List.count_eq_zero_of_not_mem hn] at h
    omega
  unfold numberValue
  rw [if_pos hmem, if_pos h]

theorem read_number_malformed_behavior_witness :
    2 ≤ (['3', '.', '1', '4', '.', '5'] : List Char).count '.' ∧
    numberValue ['3', '.', '1', '4', '.', '5'] =
      .error (.valueError (String.mk ['3', '.', '1', '4', '.', '5'])) :=
  ⟨by decide,
   read_number_malformed_behavior.2.2 ['3', '.', '1', '4', '.', '5'] (by decide)⟩

/-! ## Assignment analysis (C2) -/

theorem lookupSym_name {t : List Symbol} {n : String} {s : Symbol}
    (h : lookupSym t n = some s) : s.name = n := by
  have := List.find?_some h
  simpa using this

theorem lookupSym_map (t : List Symbol) (n : String) (g : Symbol → Symbol)
    (hg : ∀ s, (g s).name = s.name) :
    lookupSym (t.map g) n = (lookupSym t n).map g := by
  induction t with
  | nil => rfl
  | cons x xs ih =>
    have hgx : (g x).name = x.name := hg x
    simp only [lookupSym] at ih ⊢
    simp only [List.map_cons]
    by_cases hx : x.name = n
    · rw [List.find?_cons_of_pos _ (by simp [hgx, hx]),
        List.find?_cons_of_pos _ (by simp [hx])]
      simp
    · rw [List.find?_cons_of_neg _ (by simp [hgx, hx]),
        List.find?_cons_of_neg _ (by simp [hx])]
      exact ih

/-- C2 counterexample: on `y = x;` with nothing declared, the analyzer
records only the missing-target error for `y` and returns early — the
right-hand side is not visited (visiting `x` on the same state would
have appended a second error, as the second conjunct shows). -/
theorem assign_undeclared_skips_rhs :
    runVisit ⟨[.assign "y" (.ident "x" 3) 3]⟩ =
      .ok ⟨[], ["Error semantico (linea 3): Variable 'y' no declarada."], []⟩ ∧
    visitExpr (.ident "x" 3) freshAnalyzer =
      .ok (none,
        ⟨[], ["Error semantico (linea 3): Variable 'x' no declarada."], []⟩) :=
  ⟨rfl, rfl⟩

/-- C2 amended: when the assignment target is not declared, the
analyzer appends the error and returns without visiting the right-hand
expression; when the target exists, the right-hand expression is
visited and then the target is marked initialized, its used flag left
exactly as the right-hand visit left it (the assignment itself never
sets used). -/
theorem visit_AssignmentNode_behavior :
    (∀ (identifier : String) (e : Expr) (line : Nat) (st : AnalyzerState),
       existsSym st.symbols identifier = false →
       visitStmt (.assign identifier e line) st =
         .ok { st with errors := st.errors ++
           ["Error semantico (linea " ++ natToStr line ++ "): Variable '"
             ++ identifier ++ "' no declarada."] }) ∧
    (∀ (identifier : String) (e : Expr) (line : Nat) (st : AnalyzerState)
       (ty : Option String) (st1 : AnalyzerState) (sym1 : Symbol),
       existsSym st.symbols identifier = true →
       visitExpr e st = .ok (ty, st1) →
       lookupSym st1.symbols identifier = some sym1 →
       visitStmt (.assign identifier e line) st =
         .ok { st1 with symbols := st1.symbols.map (fun s =>
           if s.name = identifier then { s with initialized := true } else s) } ∧
       lookupSym (st1.symbols.map (fun s =>
           if s.name = identifier then { s with initialized := true } else s))
           identifier = some { sym1 with initialized := true }) := by
  constructor
  · intro identifier e line st h
    simp [visitStmt, h]
  · intro identifier e line st ty st1 sym1 hex hE hlook
    have hex1 : existsSym st1.symbols identifier = true := by
      simp [existsSym, hlook]
    have hname : sym1.name = identifier := lookupSym_name hlook
    have hmap := lookupSym_map st1.symbols identifier
      (fun s => if s.name = identifier then { s with initialized := true } else s)
      (fun s => by by_cases h : s.name = identifier <;> simp [h])
    constructor
    · simp only [visitStmt, hex, not_true_eq_false, if_false, reduceIte,
        hE, Except.bind, bind]
      simp [mark_as_initialized, hex1]
    · rw [hmap, hlook]
      simp [hname]

theorem visit_AssignmentNode_behavior_witness :
    existsSym [⟨"a", .VARIABLE, none, none, 1, false, false⟩] "a" = true ∧
    visitExpr (.number (.i 1) 2)
        ⟨[⟨"a", .VARIABLE, none, none, 1, false, false⟩], [], []⟩ =
      .ok (some "int",
        ⟨[⟨"a", .VARIABLE, none, none, 1, false, false⟩], [], []⟩) ∧
    lookupSym [⟨"a", .VARIABLE, none, none, 1, false, false⟩] "a" =
      some ⟨"a", .VARIABLE, none, none, 1, false, false⟩ ∧
    (visitStmt (.assign "a" (.number (.i 1) 2) 2)
        ⟨[⟨"a", .VARIABLE, none, none, 1, false, false⟩], [], []⟩ =
      .ok ⟨[⟨"a", .VARIABLE, none, none, 1, false, false⟩].map (fun s =>
          if s.name = "a" then { s with initialized := true } else s), [], []⟩ ∧
     lookupSym ([⟨"a", .VARIABLE, none, none, 1, false, false⟩].map (fun s =>
          if s.name = "a" then { s with initialized := true } else s)) "a" =
       some ⟨"a", .VARIABLE, none, none, 1, true, false⟩) :=
  ⟨by decide, rfl, by decide,
   visit_AssignmentNode_behavior.2 "a" (.number (.i 1) 2) 2
     ⟨[⟨"a", .VARIABLE, none, none, 1, false, false⟩], [], []⟩
     (some "int") ⟨[⟨"a", .VARIABLE, none, none, 1, false, false⟩], [], []⟩
     ⟨"a", .VARIABLE, none, none, 1, false, false⟩
     (by decide) rfl (by decide)⟩

/-! ## Redeclaration (C5) -/

/-- C5: redeclaring a name appends an error citing both the prior
declaration's line and the redeclaring line and leaves the symbol table
unchanged (the first declaration stays in force); on
`var x;  var x;  x = 1;` the whole analysis raises the aggregated
SemanticError with that message, and the analyzer state shows the
line-1 symbol — initialized by the statement after the redeclaration —
as the only entry. -/
theorem redeclaration_behavior :
    (∀ (st : AnalyzerState) (x : String) (l2 : Nat) (sym : Symbol),
       lookupSym st.symbols x = some sym →
       visitStmt (.varDecl x l2) st =
         .ok { st with errors := st.errors ++
           ["Error semantico: Variable '" ++ x ++ "' ya declarada en linea "
             ++ natToStr sym.line ++ ". Redeclaracion en linea "
             ++ natToStr l2 ++ "."] }) ∧
    parseSource "var x;\nvar x;\nx = 1;" =
      some ⟨[.varDecl "x" 1, .varDecl "x" 2,
             .assign "x" (.number (.i 1) 3) 3]⟩ ∧
    analyze ⟨[.varDecl "x" 1, .varDecl "x" 2,
              .assign "x" (.number (.i 1) 3) 3]⟩ =
      .error (.semanticError ("Se encontraron errores semanticos:\n" ++
        "Error semantico: Variable 'x' ya declarada en linea 1. " ++
        "Redeclaracion en linea 2.")) ∧
    runVisit ⟨[.varDecl "x" 1, .varDecl "x" 2,
               .assign "x" (.number (.i 1) 3) 3]⟩ =
      .ok ⟨[⟨"x", .VARIABLE, none, none, 1, true, false⟩],
           ["Error semantico: Variable 'x' ya declarada en linea 1. " ++
             "Redeclaracion en linea 2."], []⟩ := by
  refine ⟨?_, rfl, rfl, rfl⟩
  intro st x l2 sym h
  simp [visitStmt, declare, h]

theorem redeclaration_behavior_witness :
    lookupSym [⟨"x", .VARIABLE, none, none, 1, false, false⟩] "x" =
      some ⟨"x", .VARIABLE, none, none, 1, false, false⟩ ∧
    visitStmt (.varDecl "x" 2)
        ⟨[⟨"x", .VARIABLE, none, none, 1, false, false⟩], [], []⟩ =
      .ok ⟨[⟨"x", .VARIABLE, none, none, 1, false, false⟩],
           ["Error semantico: Variable 'x' ya declarada en linea 1. " ++
             "Redeclaracion en linea 2."], []⟩ :=
  ⟨by decide,
   redeclaration_behavior.1
     ⟨[⟨"x", .VARIABLE, none, none, 1, false, false⟩], [], []⟩
     "x" 2 ⟨"x", .VARIABLE, none, none, 1, false, false⟩ (by decide)⟩

/-! ## Determinism of re-analysis (C8) -/

/-- C8: two fresh SemanticAnalyzer instances run on the same AST end in
identical results — same symbol table (same names in insertion order,
every field equal) and same traversal outcome.  In this embedding the
analyzer is a pure function of the instance state and the AST, which
is exactly what the claim asserts: nothing else feeds the analysis. -/
theorem reanalysis_deterministic :
    ∀ (a1 a2 : AnalyzerState), a1 = freshAnalyzer → a2 = freshAnalyzer →
      ∀ (ast : ProgramNode),
        analyzeFrom a1 ast = analyzeFrom a2 ast ∧
        visitStmts ast.statements a1 = visitStmts ast.statements a2 := by
  intro a1 a2 h1 h2 ast
  subst h1
  subst h2
  exact ⟨rfl, rfl⟩

theorem reanalysis_deterministic_witness :
    analyzeFrom freshAnalyzer ⟨[.varDecl "x" 1]⟩ =
      analyzeFrom freshAnalyzer ⟨[.varDecl "x" 1]⟩ ∧
    visitStmts [.varDecl "x" 1] freshAnalyzer =
      visitStmts [.varDecl "x" 1] freshAnalyzer :=
  reanalysis_deterministic freshAnalyzer freshAnalyzer rfl rfl ⟨[.varDecl "x" 1]⟩

/-! ## analyze's exception discipline (C9) -/

/-- C9: analyze always either returns a symbol table or raises a
SemanticError — never any other exception: an internal failure
(a symbol-table operation on an absent name, such as mark_as_used,
whose raising behavior the third conjunct exhibits) is re-raised by
the final handler wrapped in a SemanticError with the fixed prefix
(second conjunct). -/
theorem analyze_wraps_exceptions :
    (∀ ast : ProgramNode,
       (∃ t, analyze ast = .ok t) ∨
       (∃ m, analyze ast = .error (.semanticError m))) ∧
    (∀ m, analyzeHandler (.otherExn m) =
       .semanticError ("Error durante el analisis semantico: " ++ m)) ∧
    (∀ (t : List Symbol) (n : String), existsSym t n = false →
       mark_as_used t n =
         .error ("Error semantico: Variable '" ++ n ++ "' no declarada.")) := by
  refine ⟨?_, fun m => rfl, ?_⟩
  · intro ast
    unfold analyze analyzeFrom
    cases h : visitStmts ast.statements
        { freshAnalyzer with errors := [], warnings := [] } with
    | error e =>
      cases e with
      | semanticError m => exact .inr ⟨m, by simp [analyzeHandler]⟩
      | otherExn m =>
        exact .inr ⟨"Error durante el analisis semantico: " ++ m,
          by simp [analyzeHandler]⟩
    | ok st =>
      by_cases he : st.errors = []
      · exact .inl ⟨st.symbols, by simp [he]⟩
      · refine .inr ⟨"Se encontraron errores semanticos:\n" ++
          joinLines st.errors, ?_⟩
        simp [he, analyzeHandler]
  · intro t n h
    simp [mark_as_used, h]

theorem analyze_wraps_exceptions_witness :
    existsSym [] "x" = false ∧
    mark_as_used [] "x" =
      .error ("Error semantico: Variable 'x' no declarada.") :=
  ⟨by decide, analyze_wraps_exceptions.2.2 [] "x" (by decide)⟩

/-! ## Label uniqueness (C6) -/

/-- The label string the generator builds for counter value k. -/
def labelName (k : Nat) : String := "L" ++ natToStr k

theorem labelName_inj {a b : Nat} (h : labelName a = labelName b) : a = b := by
  have hd : ('L' :: (natToStr a).data) = ('L' :: (natToStr b).data) :=
    congrArg String.data h
  have hdata : (natToStr a).data = (natToStr b).data := by
    injection hd
  apply natToStr_inj
  cases hna : natToStr a with
  | mk d1 =>
    cases hnb : natToStr b with
    | mk d2 =>
      rw [hna, hnb] at hdata
      simp at hdata
      rw [hdata]

/-- Results of the LABEL instructions of a listing, in order. -/
def labelResults (code : List TAC) : List String :=
  code.filterMap (fun i => if i.op = "LABEL" then i.result else none)

/-- The jump opcodes of the instruction set. -/
def isJumpOp (op : String) : Bool :=
  op = "GOTO" ∨ op = "IF_FALSE" ∨ op = "IF_TRUE"

/-- Targets of the jump instructions of a listing, in order. -/
def jumpTargets (code : List TAC) : List String :=
  code.filterMap (fun i => if isJumpOp i.op then i.result else none)

theorem labelResults_append (a b : List TAC) :
    labelResults (a ++ b) = labelResults a ++ labelResults b :=
  List.filterMap_append a b _

theorem jumpTargets_append (a b : List TAC) :
    jumpTargets (a ++ b) = jumpTargets a ++ jumpTargets b :=
  List.filterMap_append a b _

/-- The LABEL instructions a listing ought to hold for label counters
in [l, l'). -/
def intervalLabels (l lp : Nat) : List String :=
  (List.range' l (lp - l)).map labelName

theorem intervalLabels_self (l : Nat) : intervalLabels l l = [] := by
  simp [intervalLabels]

theorem intervalLabels_count_split (l m lp : Nat) (h1 : l ≤ m) (h2 : m ≤ lp)
    (n : String) :
    (intervalLabels l lp).count n =
      (intervalLabels l m).count n + (intervalLabels m lp).count n := by
  unfold intervalLabels
  rw [← List.count_append, ← List.map_append]
  have : List.range' l (m - l) ++ List.range' (l + (m - l)) (lp - m) =
      List.range' l ((lp - m) + (m - l)) := List.range'_append_1 l (m - l) (lp - m)
  rw [show l + (m - l) = m by omega] at this
  rw [this, show (lp - m) + (m - l) = lp - l by omega]

theorem intervalLabels_one (l : Nat) :
    intervalLabels l (l + 1) = [labelName l] := by
  simp [intervalLabels, List.range']

theorem count_intervalLabels (l lp k : Nat) :
    (intervalLabels l lp).count (labelName k) =
      if l ≤ k ∧ k < lp then 1 else 0 := by
  unfold intervalLabels
  rw [List.count_map_of_injective _ labelName (fun a b => labelName_inj) k]
  by_cases h : l ≤ k ∧ k < lp
  · rw [if_pos h]
    exact List.count_eq_one_of_mem
      (List.nodup_range' _ _ _ (by norm_num))
      (List.mem_range'_1.mpr ⟨h.1, by omega⟩)
  · rw [if_neg h]
    exact List.count_eq_zero_of_not_mem
      (fun hm => h (by
        have := List.mem_range'_1.mp hm
        exact ⟨this.1, by omega⟩))

/-- Operators appearing at BinaryOp nodes of expressions the parser
can produce never collide with the control opcodes; this predicate
captures that (the well-formedness the lexer+parser guarantee, proved
below). -/
def exprOpsOK : Expr → Bool
  | .binOp op l r _ => !(isJumpOp op || op = "LABEL") && exprOpsOK l && exprOpsOK r
  | .unaryOp _ operand _ => exprOpsOK operand
  | .number _ _ => true
  | .ident _ _ => true

mutual

def stmtOpsOK : Stmt → Bool
  | .varDecl _ _ => true
  | .assign _ e _ => exprOpsOK e
  | .ifStmt c tb eb _ =>
    exprOpsOK c && stmtsOpsOK tb &&
      (match eb with | some es => stmtsOpsOK es | none => true)
  | .whileStmt c b _ => exprOpsOK c && stmtsOpsOK b
  | .printStmt e _ => exprOpsOK e
termination_by structural s => s

def stmtsOpsOK : List Stmt → Bool
  | [] => true
  | s :: ss => stmtOpsOK s && stmtsOpsOK ss
termination_by structural ss => ss

end

/-- Expression lowering emits neither LABEL instructions nor jumps. -/
theorem exprGenD_no_labels (e : Expr) :
    ∀ t : Nat, exprOpsOK e = true →
      labelResults (exprGenD e t).2.1 = [] ∧
      jumpTargets (exprGenD e t).2.1 = [] := by
  induction e with
  | number v line => intro t h; exact ⟨rfl, rfl⟩
  | ident n line => intro t h; exact ⟨rfl, rfl⟩
  | binOp op l r line ihl ihr =>
    intro t h
    simp only [exprOpsOK, Bool.and_eq_true, Bool.not_eq_true',
      Bool.or_eq_false_iff] at h
    obtain ⟨⟨⟨hj, hl⟩, h1⟩, h2⟩ := h
    have hl' : op ≠ "LABEL" := by simpa using hl
    rcases hL : exprGenD l t with ⟨lr, dl, t1⟩
    rcases hR : exprGenD r t1 with ⟨rr, dr, t2⟩
    have i1 := ihl t h1
    have i2 := ihr t1 h2
    rw [hL] at i1
    rw [hR] at i2
    simp only [exprGenD, hL, hR]
    constructor
    · rw [labelResults_append, labelResults_append, i1.1, i2.1]
      simp [labelResults, hl']
    · rw [jumpTargets_append, jumpTargets_append, i1.2, i2.2]
      simp [jumpTargets, hj]
  | unaryOp op operand line ih =>
    intro t h
    simp only [exprOpsOK] at h
    rcases hO : exprGenD operand t with ⟨orr, dO, t1⟩
    have i1 := ih t h
    rw [hO] at i1
    simp only [exprGenD, hO]
    by_cases h1 : op = "-"
    · subst h1
      rw [if_pos rfl]
      constructor
      · rw [labelResults_append, i1.1]
        simp [labelResults, isJumpOp]
      · rw [jumpTargets_append, i1.2]
        simp [jumpTargets, isJumpOp]
    · by_cases h2 : op = "+"
      · subst h2
        rw [if_neg (by decide), if_pos rfl]
        constructor
        · rw [labelResults_append, i1.1]
          simp [labelResults, isJumpOp]
        · rw [jumpTargets_append, i1.2]
          simp [jumpTargets, isJumpOp]
      · rw [if_neg h1, if_neg h2]
        exact i1

/-- Destructuring lemmas for the op-wellformedness predicates (kept
outside the recursive proofs below). -/
theorem opsOK_assign {identifier : String} {e : Expr} {line : Nat}
    (h : stmtOpsOK (.assign identifier e line) = true) : exprOpsOK e = true := by
  unfold stmtOpsOK at h
  exact h

theorem opsOK_print {e : Expr} {line : Nat}
    (h : stmtOpsOK (.printStmt e line) = true) : exprOpsOK e = true := by
  unfold stmtOpsOK at h
  exact h

theorem opsOK_while {c : Expr} {b : List Stmt} {line : Nat}
    (h : stmtOpsOK (.whileStmt c b line) = true) :
    exprOpsOK c = true ∧ stmtsOpsOK b = true := by
  unfold stmtOpsOK at h
  simpa [Bool.and_eq_true] using h

theorem opsOK_if {c : Expr} {tb : List Stmt} {eb : Option (List Stmt)}
    {line : Nat} (h : stmtOpsOK (.ifStmt c tb eb line) = true) :
    exprOpsOK c = true ∧ stmtsOpsOK tb = true ∧
      (∀ e1 es, eb = some (e1 :: es) → stmtsOpsOK (e1 :: es) = true) := by
  unfold stmtOpsOK at h
  simp only [Bool.and_eq_true] at h
  obtain ⟨⟨h1, h2⟩, h3⟩ := h
  refine ⟨h1, h2, fun e1 es he => ?_⟩
  subst he
  simpa using h3

theorem opsOK_cons {s : Stmt} {ss : List Stmt}
    (h : stmtsOpsOK (s :: ss) = true) :
    stmtOpsOK s = true ∧ stmtsOpsOK ss = true := by
  unfold stmtsOpsOK at h
  simpa [Bool.and_eq_true] using h

/-- Shared label bookkeeping of the if-lowering delta: given the
invariant for the then- and else-deltas over [l+2, l2) and [l2, l3),
the assembled if-delta carries exactly the labels [l, l3), and all its
jumps land in that range. -/
theorem ifDelta_labels (d dThen dElse : List TAC) (c : String)
    (l l2 l3 : Nat)
    (hd : labelResults d = []) (hdj : jumpTargets d = [])
    (h1 : l + 2 ≤ l2) (h2 : l2 ≤ l3)
    (iht2 : ∀ n, (labelResults dThen).count n =
      (intervalLabels (l + 2) l2).count n)
    (iht3 : ∀ n ∈ jumpTargets dThen, ∃ k, l + 2 ≤ k ∧ k < l2 ∧ n = labelName k)
    (ihe2 : ∀ n, (labelResults dElse).count n =
      (intervalLabels l2 l3).count n)
    (ihe3 : ∀ n ∈ jumpTargets dElse, ∃ k, l2 ≤ k ∧ k < l3 ∧ n = labelName k) :
    (∀ n, (labelResults
        (d ++ [⟨"IF_FALSE", some c, none, some ("L" ++ natToStr l)⟩] ++ dThen
          ++ [⟨"GOTO", none, none, some ("L" ++ natToStr (l + 1))⟩]
          ++ [⟨"LABEL", none, none, some ("L" ++ natToStr l)⟩] ++ dElse
          ++ [⟨"LABEL", none, none, some ("L" ++ natToStr (l + 1))⟩])).count n =
      (intervalLabels l l3).count n) ∧
    (∀ n ∈ jumpTargets
        (d ++ [⟨"IF_FALSE", some c, none, some ("L" ++ natToStr l)⟩] ++ dThen
          ++ [⟨"GOTO", none, none, some ("L" ++ natToStr (l + 1))⟩]
          ++ [⟨"LABEL", none, none, some ("L" ++ natToStr l)⟩] ++ dElse
          ++ [⟨"LABEL", none, none, some ("L" ++ natToStr (l + 1))⟩]),
      ∃ k, l ≤ k ∧ k < l3 ∧ n = labelName k) := by
  have hassoc : (d ++ [⟨"IF_FALSE", some c, none, some ("L" ++ natToStr l)⟩]
        ++ dThen ++ [⟨"GOTO", none, none, some ("L" ++ natToStr (l + 1))⟩]
        ++ [⟨"LABEL", none, none, some ("L" ++ natToStr l)⟩] ++ dElse
        ++ [⟨"LABEL", none, none, some ("L" ++ natToStr (l + 1))⟩]
        : List TAC)
      = d ++ ([⟨"IF_FALSE", some c, none, some ("L" ++ natToStr l)⟩]
        ++ (dThen ++ ([⟨"GOTO", none, none, some ("L" ++ natToStr (l + 1))⟩]
        ++ ([⟨"LABEL", none, none, some ("L" ++ natToStr l)⟩] ++ (dElse
        ++ [⟨"LABEL", none, none, some ("L" ++ natToStr (l + 1))⟩]))))) := by
    simp [List.append_assoc]
  constructor
  · intro n
    rw [hassoc]
    repeat rw [labelResults_append]
    rw [hd]
    have e1 : labelResults
        [⟨"IF_FALSE", some c, none, some ("L" ++ natToStr l)⟩] = [] := rfl
    have e2 : labelResults
        [⟨"GOTO", none, none, some ("L" ++ natToStr (l + 1))⟩] = [] := rfl
    have e3 : labelResults [⟨"LABEL", none, none, some ("L" ++ natToStr l)⟩]
        = [labelName l] := rfl
    have e4 : labelResults
        [⟨"LABEL", none, none, some ("L" ++ natToStr (l + 1))⟩]
        = [labelName (l + 1)] := rfl
    rw [e1, e2, e3, e4]
    have hs1 := intervalLabels_count_split l (l + 1) l3 (by omega) (by omega) n
    have hs2 := intervalLabels_count_split (l + 1) (l + 2) l3
      (by omega) (by omega) n
    have hs3 := intervalLabels_count_split (l + 2) l2 l3
      (by omega) (by omega) n
    rw [intervalLabels_one] at hs1
    rw [intervalLabels_one] at hs2
    simp only [List.count_append, List.count_nil, iht2 n, ihe2 n]
    omega
  · intro n hn
    rw [hassoc] at hn
    repeat rw [jumpTargets_append] at hn
    rw [hdj] at hn
    simp only [List.mem_append] at hn
    rcases hn with h0 | h0 | h0 | h0 | h0 | h0 | h0
    · simp [jumpTargets] at h0
    · simp only [jumpTargets, List.filterMap] at h0
      simp [isJumpOp] at h0
      exact ⟨l, by omega, by omega, by simp [h0, labelName]⟩
    · obtain ⟨k, hk1, hk2, hk3⟩ := iht3 n h0
      exact ⟨k, by omega, by omega, hk3⟩
    · simp only [jumpTargets, List.filterMap] at h0
      simp [isJumpOp] at h0
      exact ⟨l + 1, by omega, by omega, by simp [h0, labelName]⟩
    · simp [jumpTargets, isJumpOp] at h0
    · obtain ⟨k, hk1, hk2, hk3⟩ := ihe3 n h0
      exact ⟨k, by omega, by omega, hk3⟩
    · simp [jumpTargets, isJumpOp] at h0

mutual

/-- Label bookkeeping invariant of statement lowering: the LABEL
instructions a statement emits are exactly (as a multiset) the labels
its run allocates — counters [l, l') — and every jump it emits targets
one of those. -/
theorem stmtGenD_labels (s : Stmt) : ∀ (t l : Nat), stmtOpsOK s = true →
    l ≤ (stmtGenD s t l).2.2 ∧
    (∀ n, (labelResults (stmtGenD s t l).1).count n =
      (intervalLabels l (stmtGenD s t l).2.2).count n) ∧
    (∀ n ∈ jumpTargets (stmtGenD s t l).1,
      ∃ k, l ≤ k ∧ k < (stmtGenD s t l).2.2 ∧ n = labelName k) :=
  match s with
  | .varDecl identifier line => by
    intro t l h
    refine ⟨Nat.le_refl l, fun n => ?_, fun n hn => ?_⟩
    · simp [stmtGenD, labelResults, intervalLabels_self]
    · simp [stmtGenD, jumpTargets] at hn
  | .assign identifier e line => by
    intro t l h
    have h := opsOK_assign h
    rcases hE : exprGenD e t with ⟨r, d, t1⟩
    have hne := exprGenD_no_labels e t h
    rw [hE] at hne
    refine ⟨Nat.le_refl l, fun n => ?_, fun n hn => ?_⟩
    · simp only [stmtGenD, hE, labelResults_append, hne.1,
        intervalLabels_self]
      simp [labelResults]
    · simp only [stmtGenD, hE, jumpTargets_append, hne.2] at hn
      simp [jumpTargets, isJumpOp] at hn
  | .printStmt e line => by
    intro t l h
    have h := opsOK_print h
    rcases hE : exprGenD e t with ⟨r, d, t1⟩
    have hne := exprGenD_no_labels e t h
    rw [hE] at hne
    refine ⟨Nat.le_refl l, fun n => ?_, fun n hn => ?_⟩
    · simp only [stmtGenD, hE, labelResults_append, hne.1,
        intervalLabels_self]
      simp [labelResults]
    · simp only [stmtGenD, hE, jumpTargets_append, hne.2] at hn
      simp [jumpTargets, isJumpOp] at hn
  | .whileStmt cond body line => by
    intro t l h
    obtain ⟨hc, hb⟩ := opsOK_while h
    rcases hE : exprGenD cond t with ⟨c, d, t1⟩
    rcases hB : stmtsGenD body t1 (l + 2) with ⟨dBody, t2, l2⟩
    have hne := exprGenD_no_labels cond t hc
    rw [hE] at hne
    have ihb := stmtsGenD_labels body t1 (l + 2) hb
    rw [hB] at ihb
    obtain ⟨ihb1, ihb2, ihb3⟩ := ihb
    dsimp only at ihb1 ihb2 ihb3
    have hout : stmtGenD (.whileStmt cond body line) t l =
        ([⟨"LABEL", none, none, some ("L" ++ natToStr l)⟩] ++ d
          ++ [⟨"IF_FALSE", some c, none, some ("L" ++ natToStr (l + 1))⟩]
          ++ dBody ++ [⟨"GOTO", none, none, some ("L" ++ natToStr l)⟩]
          ++ [⟨"LABEL", none, none, some ("L" ++ natToStr (l + 1))⟩],
         t2, l2) := by
      simp only [stmtGenD, hE, hB]
    rw [hout]
    dsimp only
    refine ⟨by omega, fun n => ?_, fun n hn => ?_⟩
    · rw [show ([⟨"LABEL", none, none, some ("L" ++ natToStr l)⟩] ++ d
          ++ [⟨"IF_FALSE", some c, none, some ("L" ++ natToStr (l + 1))⟩]
          ++ dBody ++ [⟨"GOTO", none, none, some ("L" ++ natToStr l)⟩]
          ++ [⟨"LABEL", none, none, some ("L" ++ natToStr (l + 1))⟩] : List TAC)
        = [⟨"LABEL", none, none, some ("L" ++ natToStr l)⟩] ++ (d
          ++ ([⟨"IF_FALSE", some c, none, some ("L" ++ natToStr (l + 1))⟩]
          ++ (dBody ++ ([⟨"GOTO", none, none, some ("L" ++ natToStr l)⟩]
          ++ [⟨"LABEL", none, none, some ("L" ++ natToStr (l + 1))⟩]))))
        by simp [List.append_assoc]]
      repeat rw [labelResults_append]
      rw [hne.1]
      have e1 : labelResults [⟨"LABEL", none, none, some ("L" ++ natToStr l)⟩]
          = [labelName l] := rfl
      have e2 : labelResults
          [⟨"IF_FALSE", some c, none, some ("L" ++ natToStr (l + 1))⟩] = [] := rfl
      have e3 : labelResults [⟨"GOTO", none, none, some ("L" ++ natToStr l)⟩]
          = [] := rfl
      have e4 : labelResults
          [⟨"LABEL", none, none, some ("L" ++ natToStr (l + 1))⟩]
          = [labelName (l + 1)] := rfl
      rw [e1, e2, e3, e4]
      have hs1 := intervalLabels_count_split l (l + 1) l2
        (by omega) (by omega) n
      have hs2 := intervalLabels_count_split (l + 1) (l + 2) l2
        (by omega) (by omega) n
      rw [intervalLabels_one] at hs1
      rw [intervalLabels_one] at hs2
      simp only [List.count_append, List.count_nil, ihb2 n]
      omega
    · rw [show ([⟨"LABEL", none, none, some ("L" ++ natToStr l)⟩] ++ d
          ++ [⟨"IF_FALSE", some c, none, some ("L" ++ natToStr (l + 1))⟩]
          ++ dBody ++ [⟨"GOTO", none, none, some ("L" ++ natToStr l)⟩]
          ++ [⟨"LABEL", none, none, some ("L" ++ natToStr (l + 1))⟩] : List TAC)
        = [⟨"LABEL", none, none, some ("L" ++ natToStr l)⟩] ++ (d
          ++ ([⟨"IF_FALSE", some c, none, some ("L" ++ natToStr (l + 1))⟩]
          ++ (dBody ++ ([⟨"GOTO", none, none, some ("L" ++ natToStr l)⟩]
          ++ [⟨"LABEL", none, none, some ("L" ++ natToStr (l + 1))⟩]))))
        by simp [List.append_assoc]] at hn
      repeat rw [jumpTargets_append] at hn
      rw [hne.2] at hn
      simp only [List.mem_append] at hn
      rcases hn with h0 | h0 | h0 | h0 | h0 | h0
      · simp [jumpTargets, isJumpOp] at h0
      · simp [jumpTargets, isJumpOp] at h0
      · simp only [jumpTargets, List.filterMap] at h0
        simp [isJumpOp] at h0
        exact ⟨l + 1, by omega, by omega, by simp [h0, labelName]⟩
      · obtain ⟨k, hk1, hk2, hk3⟩ := ihb3 n h0
        exact ⟨k, by omega, by omega, hk3⟩
      · simp only [jumpTargets, List.filterMap] at h0
        simp [isJumpOp] at h0
        exact ⟨l, by omega, by omega, by simp [h0, labelName]⟩
      · simp [jumpTargets, isJumpOp] at h0
  | .ifStmt cond thenB elseB line => by
    intro t l h
    obtain ⟨hc, ht, he⟩ := opsOK_if h
    rcases hE : exprGenD cond t with ⟨c, d, t1⟩
    rcases hT : stmtsGenD thenB t1 (l + 2) with ⟨dThen, t2, l2⟩
    have hne := exprGenD_no_labels cond t hc
    rw [hE] at hne
    have iht := stmtsGenD_labels thenB t1 (l + 2) ht
    rw [hT] at iht
    obtain ⟨iht1, iht2, iht3⟩ := iht
    dsimp only at iht1 iht2 iht3
    rcases elseB with _ | elseList
    · simp only [stmtGenD, hE, hT]
      refine ⟨by omega, ?_, ?_⟩
      · exact (ifDelta_labels d dThen [] c l l2 l2 hne.1 hne.2 iht1
          (Nat.le_refl _) iht2 iht3
          (fun n => by simp [labelResults, intervalLabels_self])
          (fun n hn => by simp [jumpTargets] at hn)).1
      · exact (ifDelta_labels d dThen [] c l l2 l2 hne.1 hne.2 iht1
          (Nat.le_refl _) iht2 iht3
          (fun n => by simp [labelResults, intervalLabels_self])
          (fun n hn => by simp [jumpTargets] at hn)).2
    · rcases elseList with _ | ⟨e1, es⟩
      · simp only [stmtGenD, hE, hT]
        refine ⟨by omega, ?_, ?_⟩
        · exact (ifDelta_labels d dThen [] c l l2 l2 hne.1 hne.2 iht1
            (Nat.le_refl _) iht2 iht3
            (fun n => by simp [labelResults, intervalLabels_self])
            (fun n hn => by simp [jumpTargets] at hn)).1
        · exact (ifDelta_labels d dThen [] c l l2 l2 hne.1 hne.2 iht1
            (Nat.le_refl _) iht2 iht3
            (fun n => by simp [labelResults, intervalLabels_self])
            (fun n hn => by simp [jumpTargets] at hn)).2
      · have hes : stmtsOpsOK (e1 :: es) = true := he e1 es rfl
        have ihe := stmtsGenD_labels (e1 :: es) t2 l2 hes
        rcases hEl : stmtsGenD (e1 :: es) t2 l2 with ⟨dElse, t3, l3⟩
        rw [hEl] at ihe
        obtain ⟨ihe1, ihe2, ihe3⟩ := ihe
        dsimp only at ihe1 ihe2 ihe3
        simp only [stmtGenD, hE, hT, hEl]
        refine ⟨by omega, ?_, ?_⟩
        · exact (ifDelta_labels d dThen dElse c l l2 l3 hne.1 hne.2 iht1
            ihe1 iht2 iht3 ihe2 ihe3).1
        · exact (ifDelta_labels d dThen dElse c l l2 l3 hne.1 hne.2 iht1
            ihe1 iht2 iht3 ihe2 ihe3).2
termination_by sizeOf s

theorem stmtsGenD_labels (ss : List Stmt) : ∀ (t l : Nat),
    stmtsOpsOK ss = true →
    l ≤ (stmtsGenD ss t l).2.2 ∧
    (∀ n, (labelResults (stmtsGenD ss t l).1).count n =
      (intervalLabels l (stmtsGenD ss t l).2.2).count n) ∧
    (∀ n ∈ jumpTargets (stmtsGenD ss t l).1,
      ∃ k, l ≤ k ∧ k < (stmtsGenD ss t l).2.2 ∧ n = labelName k) :=
  match ss with
  | [] => by
    intro t l h
    refine ⟨Nat.le_refl l, fun n => ?_, fun n hn => ?_⟩
    · simp [stmtsGenD, labelResults, intervalLabels_self]
    · simp [stmtsGenD, jumpTargets] at hn
  | s :: rest => by
    intro t l h
    obtain ⟨h1, h2⟩ := opsOK_cons h
    rcases hA : stmtGenD s t l with ⟨d1, t1, l1⟩
    rcases hB : stmtsGenD rest t1 l1 with ⟨d2, t2, l2⟩
    have ih1 := stmtGenD_labels s t l h1
    rw [hA] at ih1
    obtain ⟨ih1a, ih1b, ih1c⟩ := ih1
    dsimp only at ih1a ih1b ih1c
    have ih2 := stmtsGenD_labels rest t1 l1 h2
    rw [hB] at ih2
    obtain ⟨ih2a, ih2b, ih2c⟩ := ih2
    dsimp only at ih2a ih2b ih2c
    have hout : stmtsGenD (s :: rest) t l = (d1 ++ d2, t2, l2) := by
      simp only [stmtsGenD, hA, hB]
    rw [hout]
    dsimp only
    refine ⟨by omega, fun n => ?_, fun n hn => ?_⟩
    · rw [labelResults_append, List.count_append, ih1b n, ih2b n,
        intervalLabels_count_split l l1 l2 (by omega) (by omega) n]
    · rw [jumpTargets_append, List.mem_append] at hn
      rcases hn with h0 | h0
      · obtain ⟨k, hk1, hk2, hk3⟩ := ih1c n h0
        exact ⟨k, by omega, by omega, hk3⟩
      · obtain ⟨k, hk1, hk2, hk3⟩ := ih2c n h0
        exact ⟨k, by omega, by omega, hk3⟩
termination_by sizeOf ss

end

/-- Filtering the LABEL instructions whose result is a given target
counts its occurrences among the LABEL results. -/
theorem filter_label_eq_count (code : List TAC) (tgt : String) :
    (code.filter (fun i => i.op = "LABEL" ∧ i.result = some tgt)).length =
      (labelResults code).count tgt := by
  unfold labelResults
  induction code with
  | nil => rfl
  | cons i rest ih =>
    by_cases h1 : i.op = "LABEL"
    · cases hres : i.result with
      | none =>
        simpa [List.filter_cons, List.filterMap_cons, h1, hres] using ih
      | some r =>
        by_cases hr : r = tgt
        · subst hr
          simpa [List.filter_cons, List.filterMap_cons, h1, hres,
            List.count_cons] using ih
        · simpa [List.filter_cons, List.filterMap_cons, h1, hres,
            List.count_cons, hr] using ih
    · simpa [List.filter_cons, List.filterMap_cons, h1] using ih

/-- Labels of the jumps of a generated listing each occur exactly once
among its LABEL results, for ASTs whose operators avoid the control
opcodes. -/
theorem generate_labels_count (ast : ProgramNode)
    (h : stmtsOpsOK ast.statements = true) :
    ∀ tgt ∈ jumpTargets (generate ast),
      (labelResults (generate ast)).count tgt = 1 := by
  intro tgt htgt
  unfold generate at htgt ⊢
  rw [genStmts_eq] at htgt ⊢
  rcases hG : stmtsGenD ast.statements 0 0 with ⟨d, tF, lF⟩
  simp only [hG, List.nil_append] at htgt ⊢
  have inv := stmtsGenD_labels ast.statements 0 0 h
  rw [hG] at inv
  obtain ⟨i1, i2, i3⟩ := inv
  dsimp only at i1 i2 i3
  obtain ⟨k, hk1, hk2, hk3⟩ := i3 tgt htgt
  subst hk3
  rw [i2 (labelName k), count_intervalLabels]
  rw [if_pos ⟨hk1, hk2⟩]

/-! ## Lexer output carries canonical operator lexemes -/

/-- Operator tokens carry their own lexeme as value (what tokenize
always produces); on other token kinds nothing is required. -/
def goodOpToken (t : Token) : Bool :=
  match t.type with
  | .PLUS => t.value = TokValue.vStr "+"
  | .MINUS => t.value = TokValue.vStr "-"
  | .MULTIPLY => t.value = TokValue.vStr "*"
  | .DIVIDE => t.value = TokValue.vStr "/"
  | .LESS_THAN => t.value = TokValue.vStr "<"
  | .GREATER_THAN => t.value = TokValue.vStr ">"
  | .LESS_EQUAL => t.value = TokValue.vStr "<="
  | .GREATER_EQUAL => t.value = TokValue.vStr ">="
  | .EQUAL => t.value = TokValue.vStr "=="
  | .NOT_EQUAL => t.value = TokValue.vStr "!="
  | _ => true

theorem goodOpToken_keyword (s : String) (l c : Nat) :
    goodOpToken ⟨(keywordType s).getD .IDENTIFIER, .vStr s, l, c⟩ = true := by
  unfold keywordType
  split_ifs <;> rfl

set_option maxHeartbeats 1000000 in
theorem goodOpToken_single (c : Char) (tt : TokenType) (l co : Nat)
    (h : singleCharToken c = some tt) :
    goodOpToken ⟨tt, .vStr (String.mk [c]), l, co⟩ = true := by
  unfold singleCharToken at h
  split_ifs at h with h1 h2 h3 h4 h5 h6 h7 h8 h9 h10 h11 h12
  all_goals first
    | exact Option.noConfusion h
    | (injection h with he; subst he; subst_vars; rfl)

theorem tokenizeAux_nil (fuel line col : Nat) (acc : List Token) :
    tokenizeAux fuel [] line col acc =
      .ok (acc ++ [⟨.EOF, .vNone, line, col⟩]) := by
  cases fuel <;> rfl

theorem tokenizeAux_zero (c : Char) (rest : List Char) (line col : Nat)
    (acc : List Token) :
    tokenizeAux 0 (c :: rest) line col acc =
      .error (.lexicalError "lexer fuel exhausted") := rfl

/-- One unfolding step of the scanning loop, stated once so the
fuel-induction proofs can rewrite with it. -/
theorem tokenizeAux_succ (fuel : Nat) (c : Char) (rest : List Char)
    (line col : Nat) (acc : List Token) :
    tokenizeAux (fuel + 1) (c :: rest) line col acc =
    (if c = ' ' ∨ c = '\t' ∨ c = '\r' then
      tokenizeAux fuel rest line (col + 1) acc
    else if c = '/' ∧ rest.head? = some '/' then
      tokenizeAux fuel (rest.dropWhile (fun d => d ≠ '\n')) line
        (col + 1 + (rest.takeWhile (fun d => d ≠ '\n')).length) acc
    else if c = '\n' then
      tokenizeAux fuel rest (line + 1) 1 acc
    else if c.isDigit then
      match numberValue (c :: rest.takeWhile isNumChar) with
      | .error e => .error e
      | .ok v =>
        tokenizeAux fuel (rest.dropWhile isNumChar) line
          (col + (c :: rest.takeWhile isNumChar).length)
          (acc ++ [⟨.NUMBER, v, line, col⟩])
    else if c.isAlpha ∨ c = '_' then
      tokenizeAux fuel (rest.dropWhile isIdentChar) line
        (col + (c :: rest.takeWhile isIdentChar).length)
        (acc ++ [⟨(keywordType (String.mk (c :: rest.takeWhile isIdentChar))).getD
            .IDENTIFIER,
          .vStr (String.mk (c :: rest.takeWhile isIdentChar)), line, col⟩])
    else if c = '=' ∧ rest.head? = some '=' then
      tokenizeAux fuel (rest.drop 1) line (col + 2)
        (acc ++ [⟨.EQUAL, .vStr "==", line, col⟩])
    else if c = '!' ∧ rest.head? = some '=' then
      tokenizeAux fuel (rest.drop 1) line (col + 2)
        (acc ++ [⟨.NOT_EQUAL, .vStr "!=", line, col⟩])
    else if c = '<' ∧ rest.head? = some '=' then
      tokenizeAux fuel (rest.drop 1) line (col + 2)
        (acc ++ [⟨.LESS_EQUAL, .vStr "<=", line, col⟩])
    else if c = '>' ∧ rest.head? = some '=' then
      tokenizeAux fuel (rest.drop 1) line (col + 2)
        (acc ++ [⟨.GREATER_EQUAL, .vStr ">=", line, col⟩])
    else
      match singleCharToken c with
      | some tt =>
        tokenizeAux fuel rest line (col + 1)
          (acc ++ [⟨tt, .vStr (String.mk [c]), line, col⟩])
      | none =>
        .error (.lexicalError ("Caracter no reconocido '" ++ String.mk [c] ++
          "' en linea " ++ natToStr line ++ ", columna " ++ natToStr col))) := rfl

/-- Appending one good token preserves accumulator goodness. -/
theorem appendGood {acc : List Token} {tok : Token}
    (hacc : ∀ t ∈ acc, goodOpToken t = true)
    (htok : goodOpToken tok = true) :
    ∀ t ∈ acc ++ [tok], goodOpToken t = true := by
  intro u hu
  rcases List.mem_append.mp hu with h | h
  · exact hacc u h
  · simp at h
    subst h
    exact htok

/-- Every token tokenize emits is operator-canonical. -/
theorem tokenizeAux_good : ∀ (fuel : Nat) (cs : List Char) (line col : Nat)
    (acc toks : List Token),
    (∀ t ∈ acc, goodOpToken t = true) →
    tokenizeAux fuel cs line col acc = .ok toks →
    ∀ t ∈ toks, goodOpToken t = true := by
  intro fuel
  induction fuel with
  | zero =>
    intro cs line col acc toks hacc htok t ht
    match cs with
    | [] =>
      rw [tokenizeAux_nil] at htok
      simp only [Except.ok.injEq] at htok
      subst htok
      refine appendGood hacc ?_ t ht
      rfl
    | c :: rest =>
      rw [tokenizeAux_zero] at htok
      exact Except.noConfusion htok
  | succ f ih =>
    intro cs line col acc toks hacc htok t ht
    match cs with
    | [] =>
      rw [tokenizeAux_nil] at htok
      simp only [Except.ok.injEq] at htok
      subst htok
      refine appendGood hacc ?_ t ht
      rfl
    | c :: rest =>
      rw [tokenizeAux_succ] at htok
      split at htok
      · exact ih _ _ _ _ _ hacc htok t ht
      · split at htok
        · exact ih _ _ _ _ _ hacc htok t ht
        · split at htok
          · exact ih _ _ _ _ _ hacc htok t ht
          · split at htok
            · -- number: the inner match on numberValue
              split at htok
              · exact Except.noConfusion htok
              · refine ih _ _ _ _ _ (appendGood hacc ?_) htok t ht
                rfl
            · split at htok
              · exact ih _ _ _ _ _
                  (appendGood hacc (goodOpToken_keyword _ _ _)) htok t ht
              · split at htok
                · refine ih _ _ _ _ _ (appendGood hacc ?_) htok t ht
                  rfl
                · split at htok
                  · refine ih _ _ _ _ _ (appendGood hacc ?_) htok t ht
                    rfl
                  · split at htok
                    · refine ih _ _ _ _ _ (appendGood hacc ?_) htok t ht
                      rfl
                    · split at htok
                      · refine ih _ _ _ _ _ (appendGood hacc ?_) htok t ht
                        rfl
                      · -- single-char map or lexical error
                        split at htok
                        · next tt hsc =>
                          exact ih _ _ _ _ _
                            (appendGood hacc
                              (goodOpToken_single _ _ _ _ hsc)) htok t ht
                        · exact Except.noConfusion htok

theorem tokenize_good (src : String) (toks : List Token)
    (h : tokenize src = .ok toks) : ∀ t ∈ toks, goodOpToken t = true :=
  tokenizeAux_good _ _ _ _ _ _ (fun t ht => by simp at ht) h

/-! ## The parser only builds well-formed operators -/

/-- All tokens of a list are operator-canonical. -/
def TksGood (toks : List Token) : Prop := ∀ t ∈ toks, goodOpToken t = true

theorem TksGood_cons {t : Token} {rest : List Token}
    (h : TksGood (t :: rest)) : goodOpToken t = true ∧ TksGood rest :=
  ⟨h t (by simp), fun u hu => h u (by simp [hu])⟩

theorem expect_good {tt : TokenType} {toks : List Token} {tok : Token}
    {toks' : List Token} (h : TksGood toks)
    (he : expect tt toks = .ok (tok, toks')) :
    tok.type = tt ∧ goodOpToken tok = true ∧ TksGood toks' := by
  match toks with
  | [] => exact Except.noConfusion he
  | t :: rest =>
    by_cases hty : t.type = tt
    · simp only [expect, hty, if_true, reduceIte, Except.ok.injEq,
        Prod.mk.injEq] at he
      obtain ⟨h1, h2⟩ := he
      subst h1
      subst h2
      exact ⟨hty, (TksGood_cons h).1, (TksGood_cons h).2⟩
    · simp [expect, hty] at he

/-- A canonical comparison-operator token yields a binop string that
is no control opcode. -/
theorem goodOp_cmp {t : Token} (hg : goodOpToken t = true)
    (hc : isComparisonOp t.type = true) :
    (isJumpOp (tokValueAsStr t.value) ||
      tokValueAsStr t.value = "LABEL") = false := by
  rcases t with ⟨ty, v, l, co⟩
  cases ty <;> simp_all [goodOpToken, tokValueAsStr, isComparisonOp] <;>
    subst hg <;> rfl

/-- Same for the additive operators. -/
theorem goodOp_add {t : Token} (hg : goodOpToken t = true)
    (hc : t.type = .PLUS ∨ t.type = .MINUS) :
    (isJumpOp (tokValueAsStr t.value) ||
      tokValueAsStr t.value = "LABEL") = false := by
  rcases t with ⟨ty, v, l, co⟩
  cases ty <;> simp_all [goodOpToken, tokValueAsStr] <;> subst hg <;> rfl

/-- Same for the multiplicative operators. -/
theorem goodOp_mul {t : Token} (hg : goodOpToken t = true)
    (hc : t.type = .MULTIPLY ∨ t.type = .DIVIDE) :
    (isJumpOp (tokValueAsStr t.value) ||
      tokValueAsStr t.value = "LABEL") = false := by
  rcases t with ⟨ty, v, l, co⟩
  cases ty <;> simp_all [goodOpToken, tokValueAsStr] <;> subst hg <;> rfl

theorem exprOpsOK_binOp {op : String} {a b : Expr} {line : Nat}
    (h1 : (isJumpOp op || op = "LABEL") = false)
    (h2 : exprOpsOK a = true) (h3 : exprOpsOK b = true) :
    exprOpsOK (.binOp op a b line) = true := by
  simp [exprOpsOK, h2, h3, h1]

theorem exprOpsOK_unaryOp {op : String} {a : Expr} {line : Nat}
    (h : exprOpsOK a = true) : exprOpsOK (.unaryOp op a line) = true := by
  simpa [exprOpsOK] using h

theorem stmtOpsOK_varDecl (identifier : String) (line : Nat) :
    stmtOpsOK (.varDecl identifier line) = true := by
  unfold stmtOpsOK
  rfl

theorem stmtOpsOK_assign {identifier : String} {e : Expr} {line : Nat}
    (h : exprOpsOK e = true) :
    stmtOpsOK (.assign identifier e line) = true := by
  unfold stmtOpsOK
  exact h

theorem stmtOpsOK_print {e : Expr} {line : Nat} (h : exprOpsOK e = true) :
    stmtOpsOK (.printStmt e line) = true := by
  unfold stmtOpsOK
  exact h

theorem stmtOpsOK_while {c : Expr} {b : List Stmt} {line : Nat}
    (h1 : exprOpsOK c = true) (h2 : stmtsOpsOK b = true) :
    stmtOpsOK (.whileStmt c b line) = true := by
  unfold stmtOpsOK
  simp [h1, h2]

theorem stmtOpsOK_if_none {c : Expr} {tb : List Stmt} {line : Nat}
    (h1 : exprOpsOK c = true) (h2 : stmtsOpsOK tb = true) :
    stmtOpsOK (.ifStmt c tb none line) = true := by
  unfold stmtOpsOK
  simp [h1, h2]

theorem stmtOpsOK_if_some {c : Expr} {tb es : List Stmt} {line : Nat}
    (h1 : exprOpsOK c = true) (h2 : stmtsOpsOK tb = true)
    (h3 : stmtsOpsOK es = true) :
    stmtOpsOK (.ifStmt c tb (some es) line) = true := by
  unfold stmtOpsOK
  simp [h1, h2, h3]

theorem stmtsOpsOK_nil : stmtsOpsOK [] = true := by
  unfold stmtsOpsOK
  rfl

theorem stmtsOpsOK_cons {s : Stmt} {ss : List Stmt}
    (h1 : stmtOpsOK s = true) (h2 : stmtsOpsOK ss = true) :
    stmtsOpsOK (s :: ss) = true := by
  unfold stmtsOpsOK
  simp [h1, h2]

mutual

theorem parseStatement_wf : ∀ (fuel : Nat) (toks : List Token) (s : Stmt)
    (toks' : List Token), TksGood toks →
    parseStatement fuel toks = .ok (s, toks') →
    stmtOpsOK s = true ∧ TksGood toks'
  | 0, _, _, _ => fun _ hp => Except.noConfusion hp
  | fuel + 1, [], s, toks' => fun h hp => by
    rw [parseStatement.eq_def] at hp
    exact Except.noConfusion hp
  | fuel + 1, t :: rest, s, toks' => fun h hp => by
    rw [parseStatement.eq_def] at hp
    dsimp only at hp
    split at hp
    · exact parseVarDeclaration_wf fuel _ _ _ h hp
    · split at hp
      · exact parseIfStatement_wf fuel _ _ _ h hp
      · split at hp
        · exact parseWhileStatement_wf fuel _ _ _ h hp
        · split at hp
          · exact parsePrintStatement_wf fuel _ _ _ h hp
          · split at hp
            · exact parseAssignment_wf fuel _ _ _ h hp
            · exact Except.noConfusion hp

theorem parseVarDeclaration_wf : ∀ (fuel : Nat) (toks : List Token) (s : Stmt)
    (toks' : List Token), TksGood toks →
    parseVarDeclaration fuel toks = .ok (s, toks') →
    stmtOpsOK s = true ∧ TksGood toks'
  | 0, _, _, _ => fun _ hp => Except.noConfusion hp
  | fuel + 1, toks, s, toks' => fun h hp => by
    rw [parseVarDeclaration] at hp
    simp only [bind, Except.bind] at hp
    split at hp
    · exact Except.noConfusion hp
    · next a hE1 =>
      obtain ⟨tok1, toks1⟩ := a
      have g1 := expect_good h hE1
      dsimp only at hp
      split at hp
      · exact Except.noConfusion hp
      · next b hE2 =>
        obtain ⟨idTok, toks2⟩ := b
        have g2 := expect_good g1.2.2 hE2
        dsimp only at hp
        split at hp
        · exact Except.noConfusion hp
        · next c hE3 =>
          obtain ⟨semiTok, toks3⟩ := c
          have g3 := expect_good g2.2.2 hE3
          dsimp only at hp
          simp only [Except.ok.injEq, Prod.mk.injEq] at hp
          obtain ⟨h1, h2⟩ := hp
          subst h1
          subst h2
          exact ⟨stmtOpsOK_varDecl _ _, g3.2.2⟩

theorem parseAssignment_wf : ∀ (fuel : Nat) (toks : List Token) (s : Stmt)
    (toks' : List Token), TksGood toks →
    parseAssignment fuel toks = .ok (s, toks') →
    stmtOpsOK s = true ∧ TksGood toks'
  | 0, _, _, _ => fun _ hp => Except.noConfusion hp
  | fuel + 1, toks, s, toks' => fun h hp => by
    rw [parseAssignment] at hp
    simp only [bind, Except.bind] at hp
    split at hp
    · exact Except.noConfusion hp
    · next a hE1 =>
      obtain ⟨idTok, toks1⟩ := a
      have g1 := expect_good h hE1
      dsimp only at hp
      split at hp
      · exact Except.noConfusion hp
      · next b hE2 =>
        obtain ⟨asTok, toks2⟩ := b
        have g2 := expect_good g1.2.2 hE2
        dsimp only at hp
        split at hp
        · exact Except.noConfusion hp
        · next c hE3 =>
          obtain ⟨e, toks3⟩ := c
          have g3 := parseExpression_wf fuel _ _ _ g2.2.2 hE3
          dsimp only at hp
          split at hp
          · exact Except.noConfusion hp
          · next d hE4 =>
            obtain ⟨semiTok, toks4⟩ := d
            have g4 := expect_good g3.2 hE4
            dsimp only at hp
            simp only [Except.ok.injEq, Prod.mk.injEq] at hp
            obtain ⟨h1, h2⟩ := hp
            subst h1
            subst h2
            exact ⟨stmtOpsOK_assign g3.1, g4.2.2⟩

theorem parseIfStatement_wf : ∀ (fuel : Nat) (toks : List Token) (s : Stmt)
    (toks' : List Token), TksGood toks →
    parseIfStatement fuel toks = .ok (s, toks') →
    stmtOpsOK s = true ∧ TksGood toks'
  | 0, _, _, _ => fun _ hp => Except.noConfusion hp
  | fuel + 1, toks, s, toks' => fun h hp => by
    rw [parseIfStatement] at hp
    simp only [bind, Except.bind] at hp
    split at hp
    · exact Except.noConfusion hp
    · next a hE1 =>
      obtain ⟨ifTok, toks1⟩ := a
      have g1 := expect_good h hE1
      dsimp only at hp
      split at hp
      · exact Except.noConfusion hp
      · next b hE2 =>
        obtain ⟨lpTok, toks2⟩ := b
        have g2 := expect_good g1.2.2 hE2
        dsimp only at hp
        split at hp
        · exact Except.noConfusion hp
        · next c hE3 =>
          obtain ⟨cond, toks3⟩ := c
          have g3 := parseExpression_wf fuel _ _ _ g2.2.2 hE3
          dsimp only at hp
          split at hp
          · exact Except.noConfusion hp
          · next d hE4 =>
            obtain ⟨rpTok, toks4⟩ := d
            have g4 := expect_good g3.2 hE4
            dsimp only at hp
            split at hp
            · exact Except.noConfusion hp
            · next e hE5 =>
              obtain ⟨lbTok, toks5⟩ := e
              have g5 := expect_good g4.2.2 hE5
              dsimp only at hp
              split at hp
              · exact Except.noConfusion hp
              · next f hE6 =>
                obtain ⟨thenB, toks6⟩ := f
                have g6 := parseBlock_wf fuel _ _ _ g5.2.2 hE6
                dsimp only at hp
                split at hp
                · exact Except.noConfusion hp
                · next g hE7 =>
                  obtain ⟨rbTok, toks7⟩ := g
                  have g7 := expect_good g6.2 hE7
                  dsimp only at hp
                  cases toks7 with
                  | nil =>
                    dsimp only at hp
                    simp only [Except.ok.injEq, Prod.mk.injEq] at hp
                    obtain ⟨h1, h2⟩ := hp
                    subst h1
                    subst h2
                    exact ⟨stmtOpsOK_if_none g3.1 g6.1, g7.2.2⟩
                  | cons t rest =>
                    dsimp only at hp
                    by_cases hElse : t.type = TokenType.ELSE
                    · rw [if_pos hElse] at hp
                      split at hp
                      · exact Except.noConfusion hp
                      · next i hE8 =>
                        obtain ⟨lb2Tok, toks8⟩ := i
                        have g8 := expect_good (TksGood_cons g7.2.2).2 hE8
                        dsimp only at hp
                        split at hp
                        · exact Except.noConfusion hp
                        · next j hE9 =>
                          obtain ⟨elseB, toks9⟩ := j
                          have g9 := parseBlock_wf fuel _ _ _ g8.2.2 hE9
                          dsimp only at hp
                          split at hp
                          · exact Except.noConfusion hp
                          · next k hE10 =>
                            obtain ⟨rb2Tok, toks10⟩ := k
                            have g10 := expect_good g9.2 hE10
                            dsimp only at hp
                            simp only [Except.ok.injEq, Prod.mk.injEq] at hp
                            obtain ⟨h1, h2⟩ := hp
                            subst h1
                            subst h2
                            exact ⟨stmtOpsOK_if_some g3.1 g6.1 g9.1, g10.2.2⟩
                    · rw [if_neg hElse] at hp
                      simp only [Except.ok.injEq, Prod.mk.injEq] at hp
                      obtain ⟨h1, h2⟩ := hp
                      subst h1
                      subst h2
                      exact ⟨stmtOpsOK_if_none g3.1 g6.1, g7.2.2⟩

theorem parseWhileStatement_wf : ∀ (fuel : Nat) (toks : List Token) (s : Stmt)
    (toks' : List Token), TksGood toks →
    parseWhileStatement fuel toks = .ok (s, toks') →
    stmtOpsOK s = true ∧ TksGood toks'
  | 0, _, _, _ => fun _ hp => Except.noConfusion hp
  | fuel + 1, toks, s, toks' => fun h hp => by
    rw [parseWhileStatement] at hp
    simp only [bind, Except.bind] at hp
    split at hp
    · exact Except.noConfusion hp
    · next a hE1 =>
      obtain ⟨whTok, toks1⟩ := a
      have g1 := expect_good h hE1
      dsimp only at hp
      split at hp
      · exact Except.noConfusion hp
      · next b hE2 =>
        obtain ⟨lpTok, toks2⟩ := b
        have g2 := expect_good g1.2.2 hE2
        dsimp only at hp
        split at hp
        · exact Except.noConfusion hp
        · next c hE3 =>
          obtain ⟨cond, toks3⟩ := c
          have g3 := parseExpression_wf fuel _ _ _ g2.2.2 hE3
          dsimp only at hp
          split at hp
          · exact Except.noConfusion hp
          · next d hE4 =>
            obtain ⟨rpTok, toks4⟩ := d
            have g4 := expect_good g3.2 hE4
            dsimp only at hp
            split at hp
            · exact Except.noConfusion hp
            · next e hE5 =>
              obtain ⟨lbTok, toks5⟩ := e
              have g5 := expect_good g4.2.2 hE5
              dsimp only at hp
              split at hp
              · exact Except.noConfusion hp
              · next f hE6 =>
                obtain ⟨body, toks6⟩ := f
                have g6 := parseBlock_wf fuel _ _ _ g5.2.2 hE6
                dsimp only at hp
                split at hp
                · exact Except.noConfusion hp
                · next g hE7 =>
                  obtain ⟨rbTok, toks7⟩ := g
                  have g7 := expect_good g6.2 hE7
                  dsimp only at hp
                  simp only [Except.ok.injEq, Prod.mk.injEq] at hp
                  obtain ⟨h1, h2⟩ := hp
                  subst h1
                  subst h2
                  exact ⟨stmtOpsOK_while g3.1 g6.1, g7.2.2⟩

theorem parsePrintStatement_wf : ∀ (fuel : Nat) (toks : List Token) (s : Stmt)
    (toks' : List Token), TksGood toks →
    parsePrintStatement fuel toks = .ok (s, toks') →
    stmtOpsOK s = true ∧ TksGood toks'
  | 0, _, _, _ => fun _ hp => Except.noConfusion hp
  | fuel + 1, toks, s, toks' => fun h hp => by
    rw [parsePrintStatement] at hp
    simp only [bind, Except.bind] at hp
    split at hp
    · exact Except.noConfusion hp
    · next a hE1 =>
      obtain ⟨prTok, toks1⟩ := a
      have g1 := expect_good h hE1
      dsimp only at hp
      split at hp
      · exact Except.noConfusion hp
      · next b hE2 =>
        obtain ⟨lpTok, toks2⟩ := b
        have g2 := expect_good g1.2.2 hE2
        dsimp only at hp
        split at hp
        · exact Except.noConfusion hp
        · next c hE3 =>
          obtain ⟨e, toks3⟩ := c
          have g3 := parseExpression_wf fuel _ _ _ g2.2.2 hE3
          dsimp only at hp
          split at hp
          · exact Except.noConfusion hp
          · next d hE4 =>
            obtain ⟨rpTok, toks4⟩ := d
            have g4 := expect_good g3.2 hE4
            dsimp only at hp
            split at hp
            · exact Except.noConfusion hp
            · next f hE5 =>
              obtain ⟨semiTok, toks5⟩ := f
              have g5 := expect_good g4.2.2 hE5
              dsimp only at hp
              simp only [Except.ok.injEq, Prod.mk.injEq] at hp
              obtain ⟨h1, h2⟩ := hp
              subst h1
              subst h2
              exact ⟨stmtOpsOK_print g3.1, g5.2.2⟩

theorem parseBlock_wf : ∀ (fuel : Nat) (toks : List Token) (ss : List Stmt)
    (toks' : List Token), TksGood toks →
    parseBlock fuel toks = .ok (ss, toks') →
    stmtsOpsOK ss = true ∧ TksGood toks'
  | 0, _, _, _ => fun _ hp => Except.noConfusion hp
  | fuel + 1, [], ss, toks' => fun h hp => by
    rw [parseBlock.eq_def] at hp
    dsimp only at hp
    simp only [Except.ok.injEq, Prod.mk.injEq] at hp
    obtain ⟨h1, h2⟩ := hp
    subst h1
    subst h2
    exact ⟨stmtsOpsOK_nil, fun t ht => by simp at ht⟩
  | fuel + 1, t :: rest, ss, toks' => fun h hp => by
    rw [parseBlock.eq_def] at hp
    dsimp only at hp
    split at hp
    · simp only [Except.ok.injEq, Prod.mk.injEq] at hp
      obtain ⟨h1, h2⟩ := hp
      subst h1
      subst h2
      exact ⟨stmtsOpsOK_nil, h⟩
    · simp only [bind, Except.bind] at hp
      split at hp
      · exact Except.noConfusion hp
      · next a hS =>
        obtain ⟨s1, toks1⟩ := a
        have g1 := parseStatement_wf fuel _ _ _ h hS
        dsimp only at hp
        split at hp
        · exact Except.noConfusion hp
        · next b hB =>
          obtain ⟨ss1, toks2⟩ := b
          have g2 := parseBlock_wf fuel _ _ _ g1.2 hB
          dsimp only at hp
          simp only [Except.ok.injEq, Prod.mk.injEq] at hp
          obtain ⟨h1, h2⟩ := hp
          subst h1
          subst h2
          exact ⟨stmtsOpsOK_cons g1.1 g2.1, g2.2⟩

theorem parseExpression_wf : ∀ (fuel : Nat) (toks : List Token) (e : Expr)
    (toks' : List Token), TksGood toks →
    parseExpression fuel toks = .ok (e, toks') →
    exprOpsOK e = true ∧ TksGood toks'
  | 0, _, _, _ => fun _ hp => Except.noConfusion hp
  | fuel + 1, toks, e, toks' => fun h hp => by
    rw [parseExpression] at hp
    exact parseComparison_wf fuel _ _ _ h hp

theorem parseComparison_wf : ∀ (fuel : Nat) (toks : List Token) (e : Expr)
    (toks' : List Token), TksGood toks →
    parseComparison fuel toks = .ok (e, toks') →
    exprOpsOK e = true ∧ TksGood toks'
  | 0, _, _, _ => fun _ hp => Except.noConfusion hp
  | fuel + 1, toks, e, toks' => fun h hp => by
    rw [parseComparison] at hp
    simp only [bind, Except.bind] at hp
    split at hp
    · exact Except.noConfusion hp
    · next a hT =>
      obtain ⟨node, toks1⟩ := a
      have g1 := parseTerm_wf fuel _ _ _ h hT
      dsimp only at hp
      exact parseComparisonLoop_wf fuel _ _ _ _ g1.2 g1.1 hp

theorem parseComparisonLoop_wf : ∀ (fuel : Nat) (node : Expr)
    (toks : List Token) (e : Expr) (toks' : List Token), TksGood toks →
    exprOpsOK node = true →
    parseComparisonLoop fuel node toks = .ok (e, toks') →
    exprOpsOK e = true ∧ TksGood toks'
  | 0, _, _, _, _ => fun _ _ hp => Except.noConfusion hp
  | fuel + 1, node, [], e, toks' => fun h hn hp => by
    rw [parseComparisonLoop.eq_def] at hp
    dsimp only at hp
    simp only [Except.ok.injEq, Prod.mk.injEq] at hp
    obtain ⟨h1, h2⟩ := hp
    subst h1
    subst h2
    exact ⟨hn, h⟩
  | fuel + 1, node, t :: rest, e, toks' => fun h hn hp => by
    rw [parseComparisonLoop.eq_def] at hp
    dsimp only at hp
    split at hp
    · next hcmp =>
      simp only [bind, Except.bind] at hp
      split at hp
      · exact Except.noConfusion hp
      · next a hT =>
        obtain ⟨right, toks2⟩ := a
        have g1 := parseTerm_wf fuel _ _ _ (TksGood_cons h).2 hT
        dsimp only at hp
        exact parseComparisonLoop_wf fuel _ _ _ _ g1.2
          (exprOpsOK_binOp (goodOp_cmp (TksGood_cons h).1 hcmp) hn g1.1) hp
    · simp only [Except.ok.injEq, Prod.mk.injEq] at hp
      obtain ⟨h1, h2⟩ := hp
      subst h1
      subst h2
      exact ⟨hn, h⟩

theorem parseTerm_wf : ∀ (fuel : Nat) (toks : List Token) (e : Expr)
    (toks' : List Token), TksGood toks →
    parseTerm fuel toks = .ok (e, toks') →
    exprOpsOK e = true ∧ TksGood toks'
  | 0, _, _, _ => fun _ hp => Except.noConfusion hp
  | fuel + 1, toks, e, toks' => fun h hp => by
    rw [parseTerm] at hp
    simp only [bind, Except.bind] at hp
    split at hp
    · exact Except.noConfusion hp
    · next a hT =>
      obtain ⟨node, toks1⟩ := a
      have g1 := parseFactor_wf fuel _ _ _ h hT
      dsimp only at hp
      exact parseTermLoop_wf fuel _ _ _ _ g1.2 g1.1 hp

theorem parseTermLoop_wf : ∀ (fuel : Nat) (node : Expr) (toks : List Token)
    (e : Expr) (toks' : List Token), TksGood toks → exprOpsOK node = true →
    parseTermLoop fuel node toks = .ok (e, toks') →
    exprOpsOK e = true ∧ TksGood toks'
  | 0, _, _, _, _ => fun _ _ hp => Except.noConfusion hp
  | fuel + 1, node, [], e, toks' => fun h hn hp => by
    rw [parseTermLoop.eq_def] at hp
    dsimp only at hp
    simp only [Except.ok.injEq, Prod.mk.injEq] at hp
    obtain ⟨h1, h2⟩ := hp
    subst h1
    subst h2
    exact ⟨hn, h⟩
  | fuel + 1, node, t :: rest, e, toks' => fun h hn hp => by
    rw [parseTermLoop.eq_def] at hp
    dsimp only at hp
    split at hp
    · next hadd =>
      simp only [bind, Except.bind] at hp
      split at hp
      · exact Except.noConfusion hp
      · next a hT =>
        obtain ⟨right, toks2⟩ := a
        have g1 := parseFactor_wf fuel _ _ _ (TksGood_cons h).2 hT
        dsimp only at hp
        exact parseTermLoop_wf fuel _ _ _ _ g1.2
          (exprOpsOK_binOp (goodOp_add (TksGood_cons h).1 hadd) hn g1.1) hp
    · simp only [Except.ok.injEq, Prod.mk.injEq] at hp
      obtain ⟨h1, h2⟩ := hp
      subst h1
      subst h2
      exact ⟨hn, h⟩

theorem parseFactor_wf : ∀ (fuel : Nat) (toks : List Token) (e : Expr)
    (toks' : List Token), TksGood toks →
    parseFactor fuel toks = .ok (e, toks') →
    exprOpsOK e = true ∧ TksGood toks'
  | 0, _, _, _ => fun _ hp => Except.noConfusion hp
  | fuel + 1, toks, e, toks' => fun h hp => by
    rw [parseFactor] at hp
    simp only [bind, Except.bind] at hp
    split at hp
    · exact Except.noConfusion hp
    · next a hU =>
      obtain ⟨node, toks1⟩ := a
      have g1 := parseUnary_wf fuel _ _ _ h hU
      dsimp only at hp
      exact parseFactorLoop_wf fuel _ _ _ _ g1.2 g1.1 hp

theorem parseFactorLoop_wf : ∀ (fuel : Nat) (node : Expr) (toks : List Token)
    (e : Expr) (toks' : List Token), TksGood toks → exprOpsOK node = true →
    parseFactorLoop fuel node toks = .ok (e, toks') →
    exprOpsOK e = true ∧ TksGood toks'
  | 0, _, _, _, _ => fun _ _ hp => Except.noConfusion hp
  | fuel + 1, node, [], e, toks' => fun h hn hp => by
    rw [parseFactorLoop.eq_def] at hp
    dsimp only at hp
    simp only [Except.ok.injEq, Prod.mk.injEq] at hp
    obtain ⟨h1, h2⟩ := hp
    subst h1
    subst h2
    exact ⟨hn, h⟩
  | fuel + 1, node, t :: rest, e, toks' => fun h hn hp => by
    rw [parseFactorLoop.eq_def] at hp
    dsimp only at hp
    split at hp
    · next hmul =>
      simp only [bind, Except.bind] at hp
      split at hp
      · exact Except.noConfusion hp
      · next a hU =>
        obtain ⟨right, toks2⟩ := a
        have g1 := parseUnary_wf fuel _ _ _ (TksGood_cons h).2 hU
        dsimp only at hp
        exact parseFactorLoop_wf fuel _ _ _ _ g1.2
          (exprOpsOK_binOp (goodOp_mul (TksGood_cons h).1 hmul) hn g1.1) hp
    · simp only [Except.ok.injEq, Prod.mk.injEq] at hp
      obtain ⟨h1, h2⟩ := hp
      subst h1
      subst h2
      exact ⟨hn, h⟩

theorem parseUnary_wf : ∀ (fuel : Nat) (toks : List Token) (e : Expr)
    (toks' : List Token), TksGood toks →
    parseUnary fuel toks = .ok (e, toks') →
    exprOpsOK e = true ∧ TksGood toks'
  | 0, _, _, _ => fun _ hp => Except.noConfusion hp
  | fuel + 1, [], e, toks' => fun h hp => by
    rw [parseUnary.eq_def] at hp
    dsimp only at hp
    exact parsePrimary_wf fuel _ _ _ h hp
  | fuel + 1, t :: rest, e, toks' => fun h hp => by
    rw [parseUnary.eq_def] at hp
    dsimp only at hp
    split at hp
    · simp only [bind, Except.bind] at hp
      split at hp
      · exact Except.noConfusion hp
      · next a hU =>
        obtain ⟨operand, toks2⟩ := a
        have g1 := parseUnary_wf fuel _ _ _ (TksGood_cons h).2 hU
        dsimp only at hp
        simp only [Except.ok.injEq, Prod.mk.injEq] at hp
        obtain ⟨h1, h2⟩ := hp
        subst h1
        subst h2
        exact ⟨exprOpsOK_unaryOp g1.1, g1.2⟩
    · exact parsePrimary_wf fuel _ _ _ h hp

theorem parsePrimary_wf : ∀ (fuel : Nat) (toks : List Token) (e : Expr)
    (toks' : List Token), TksGood toks →
    parsePrimary fuel toks = .ok (e, toks') →
    exprOpsOK e = true ∧ TksGood toks'
  | 0, _, _, _ => fun _ hp => Except.noConfusion hp
  | fuel + 1, [], e, toks' => fun h hp => by
    rw [parsePrimary.eq_def] at hp
    exact Except.noConfusion hp
  | fuel + 1, t :: rest, e, toks' => fun h hp => by
    rw [parsePrimary.eq_def] at hp
    dsimp only at hp
    split at hp
    · simp only [Except.ok.injEq, Prod.mk.injEq] at hp
      obtain ⟨h1, h2⟩ := hp
      subst h1
      subst h2
      exact ⟨rfl, (TksGood_cons h).2⟩
    · split at hp
      · simp only [Except.ok.injEq, Prod.mk.injEq] at hp
        obtain ⟨h1, h2⟩ := hp
        subst h1
        subst h2
        exact ⟨rfl, (TksGood_cons h).2⟩
      · split at hp
        · simp only [bind, Except.bind] at hp
          split at hp
          · exact Except.noConfusion hp
          · next a hEx =>
            obtain ⟨node, toks2⟩ := a
            have g1 := parseExpression_wf fuel _ _ _ (TksGood_cons h).2 hEx
            dsimp only at hp
            split at hp
            · exact Except.noConfusion hp
            · next b hRp =>
              obtain ⟨rpTok, toks3⟩ := b
              have g2 := expect_good g1.2 hRp
              dsimp only at hp
              simp only [Except.ok.injEq, Prod.mk.injEq] at hp
              obtain ⟨h1, h2⟩ := hp
              subst h1
              subst h2
              exact ⟨g1.1, g2.2.2⟩
        · exact Except.noConfusion hp

end

theorem parseTopLoop_wf : ∀ (fuel : Nat) (toks : List Token) (ss : List Stmt)
    (toks' : List Token), TksGood toks →
    parseTopLoop fuel toks = .ok (ss, toks') →
    stmtsOpsOK ss = true
  | 0, _, _, _ => fun _ hp => Except.noConfusion hp
  | fuel + 1, [], ss, toks' => fun h hp => by
    rw [parseTopLoop.eq_def] at hp
    dsimp only at hp
    simp only [Except.ok.injEq, Prod.mk.injEq] at hp
    obtain ⟨h1, _⟩ := hp
    subst h1
    exact stmtsOpsOK_nil
  | fuel + 1, t :: rest, ss, toks' => fun h hp => by
    rw [parseTopLoop.eq_def] at hp
    dsimp only at hp
    split at hp
    · simp only [Except.ok.injEq, Prod.mk.injEq] at hp
      obtain ⟨h1, _⟩ := hp
      subst h1
      exact stmtsOpsOK_nil
    · simp only [bind, Except.bind] at hp
      split at hp
      · exact Except.noConfusion hp
      · next a hS =>
        obtain ⟨s1, toks1⟩ := a
        have g1 := parseStatement_wf fuel _ _ _ h hS
        dsimp only at hp
        split at hp
        · exact Except.noConfusion hp
        · next b hL =>
          obtain ⟨ss1, toks2⟩ := b
          have g2 := parseTopLoop_wf fuel _ _ _ g1.2 hL
          dsimp only at hp
          simp only [Except.ok.injEq, Prod.mk.injEq] at hp
          obtain ⟨h1, _⟩ := hp
          subst h1
          exact stmtsOpsOK_cons g1.1 g2

/-- Any AST the parser produces from canonical tokens only mentions
MiniLang operators in its expressions. -/
theorem parse_wf (toks : List Token) (ast : ProgramNode)
    (h : TksGood toks) (hp : parse toks = .ok ast) :
    stmtsOpsOK ast.statements = true := by
  unfold parse at hp
  simp only [bind, Except.bind] at hp
  split at hp
  · exact Except.noConfusion hp
  · next a hL =>
    obtain ⟨ss, rest⟩ := a
    dsimp only at hp
    simp only [Except.ok.injEq] at hp
    subst hp
    exact parseTopLoop_wf _ _ _ _ h hL

/-- C6: in the IR generated for any AST the parser produced (from any
lexed source), every label a GOTO, IF_FALSE or IF_TRUE instruction
targets occurs exactly once as the result of a LABEL instruction of the
same listing. -/
theorem ir_jump_targets_unique :
    ∀ (src : String) (toks : List Token) (ast : ProgramNode),
      tokenize src = .ok toks → parse toks = .ok ast →
      ∀ instr ∈ generate ast,
        (instr.op = "GOTO" ∨ instr.op = "IF_FALSE" ∨ instr.op = "IF_TRUE") →
        ∀ tgt, instr.result = some tgt →
        ((generate ast).filter
          (fun j => j.op = "LABEL" ∧ j.result = some tgt)).length = 1 := by
  intro src toks ast hT hP instr hmem hop tgt hres
  have hwf : stmtsOpsOK ast.statements = true :=
    parse_wf toks ast (tokenize_good src toks hT) hP
  have hjump : tgt ∈ jumpTargets (generate ast) := by
    unfold jumpTargets
    apply List.mem_filterMap.mpr
    refine ⟨instr, hmem, ?_⟩
    have hj : isJumpOp instr.op = true := by
      rcases hop with h | h | h <;> simp [isJumpOp, h]
    simp [hj, hres]
  rw [filter_label_eq_count]
  exact generate_labels_count ast hwf tgt hjump

theorem ir_jump_targets_unique_witness :
    tokenize "while (1) { }" =
      .ok [⟨.WHILE, .vStr "while", 1, 1⟩, ⟨.LPAREN, .vStr "(", 1, 7⟩,
           ⟨.NUMBER, .vNum (.i 1), 1, 8⟩, ⟨.RPAREN, .vStr ")", 1, 9⟩,
           ⟨.LBRACE, .vStr "\x7b", 1, 11⟩, ⟨.RBRACE, .vStr "\x7d", 1, 13⟩,
           ⟨.EOF, .vNone, 1, 14⟩] ∧
    parse [⟨.WHILE, .vStr "while", 1, 1⟩, ⟨.LPAREN, .vStr "(", 1, 7⟩,
           ⟨.NUMBER, .vNum (.i 1), 1, 8⟩, ⟨.RPAREN, .vStr ")", 1, 9⟩,
           ⟨.LBRACE, .vStr "\x7b", 1, 11⟩, ⟨.RBRACE, .vStr "\x7d", 1, 13⟩,
           ⟨.EOF, .vNone, 1, 14⟩] =
      .ok ⟨[.whileStmt (.number (.i 1) 1) [] 1]⟩ ∧
    ⟨"GOTO", none, none, some "L0"⟩ ∈
      generate ⟨[.whileStmt (.number (.i 1) 1) [] 1]⟩ ∧
    ((generate ⟨[.whileStmt (.number (.i 1) 1) [] 1]⟩).filter
      (fun j => j.op = "LABEL" ∧ j.result = some "L0")).length = 1 :=
  ⟨rfl, rfl, by decide,
   ir_jump_targets_unique "while (1) { }"
     [⟨.WHILE, .vStr "while", 1, 1⟩, ⟨.LPAREN, .vStr "(", 1, 7⟩,
      ⟨.NUMBER, .vNum (.i 1), 1, 8⟩, ⟨.RPAREN, .vStr ")", 1, 9⟩,
      ⟨.LBRACE, .vStr "\x7b", 1, 11⟩, ⟨.RBRACE, .vStr "\x7d", 1, 13⟩,
      ⟨.EOF, .vNone, 1, 14⟩]
     ⟨[.whileStmt (.number (.i 1) 1) [] 1]⟩ rfl rfl
     ⟨"GOTO", none, none, some "L0"⟩ (by decide) (by decide) "L0" rfl⟩

/-! ## Stale artifacts on the Compiler object (C10) -/

/-- C10: Compiler.compile never clears fields: a failing call leaves
every field of the stages it did not reach at its previous value,
updating only source_code and the artifacts of the stages that
completed before the failure. -/
theorem compile_preserves_stale_artifacts :
    (∀ (st : CompilerState) (src : String) (e : LexError),
       tokenize src = .error e →
       compile st src = ({ st with source_code := src }, false)) ∧
    (∀ (st : CompilerState) (src : String) (tks : List Token) (m : String),
       tokenize src = .ok tks → parse tks = .error m →
       compile st src = ({ st with source_code := src, tokens := tks }, false)) ∧
    (∀ (st : CompilerState) (src : String) (tks : List Token)
       (ast : ProgramNode) (e : PyExn),
       tokenize src = .ok tks → parse tks = .ok ast → analyze ast = .error e →
       compile st src =
         ({ st with source_code := src, tokens := tks, ast := some ast },
          false)) := by
  refine ⟨?_, ?_, ?_⟩
  · intro st src e h
    simp [compile, h]
  · intro st src tks m h1 h2
    simp [compile, h1, h2]
  · intro st src tks ast e h1 h2 h3
    simp [compile, h1, h2, h3]

/-- The Compiler object after one successful compile of a three-line
program: tokens, AST, symbol table and IR all populated. -/
def compiledOnce : CompilerState :=
  (compile initCompiler "var x;\nx = 1;\nprint(x);").1

theorem compile_preserves_stale_artifacts_witness :
    tokenize "var y;\ny = z;" =
      .ok [⟨.VAR, .vStr "var", 1, 1⟩, ⟨.IDENTIFIER, .vStr "y", 1, 5⟩,
           ⟨.SEMICOLON, .vStr ";", 1, 6⟩, ⟨.IDENTIFIER, .vStr "y", 2, 1⟩,
           ⟨.ASSIGN, .vStr "=", 2, 3⟩, ⟨.IDENTIFIER, .vStr "z", 2, 5⟩,
           ⟨.SEMICOLON, .vStr ";", 2, 6⟩, ⟨.EOF, .vNone, 2, 7⟩] ∧
    compiledOnce.intermediate_code =
      [⟨"ASSIGN", some "1", none, some "x"⟩,
       ⟨"PRINT", some "x", none, none⟩] ∧
    compiledOnce.symbol_table =
      some [⟨"x", .VARIABLE, none, none, 1, true, true⟩] ∧
    compile compiledOnce "var y;\ny = z;" =
      ({ compiledOnce with
          source_code := "var y;\ny = z;",
          tokens := [⟨.VAR, .vStr "var", 1, 1⟩, ⟨.IDENTIFIER, .vStr "y", 1, 5⟩,
            ⟨.SEMICOLON, .vStr ";", 1, 6⟩, ⟨.IDENTIFIER, .vStr "y", 2, 1⟩,
            ⟨.ASSIGN, .vStr "=", 2, 3⟩, ⟨.IDENTIFIER, .vStr "z", 2, 5⟩,
            ⟨.SEMICOLON, .vStr ";", 2, 6⟩, ⟨.EOF, .vNone, 2, 7⟩],
          ast := some ⟨[.varDecl "y" 1, .assign "y" (.ident "z" 2) 2]⟩ },
       false) :=
  ⟨rfl, rfl, rfl,
   compile_preserves_stale_artifacts.2.2 compiledOnce "var y;\ny = z;"
     [⟨.VAR, .vStr "var", 1, 1⟩, ⟨.IDENTIFIER, .vStr "y", 1, 5⟩,
      ⟨.SEMICOLON, .vStr ";", 1, 6⟩, ⟨.IDENTIFIER, .vStr "y", 2, 1⟩,
      ⟨.ASSIGN, .vStr "=", 2, 3⟩, ⟨.IDENTIFIER, .vStr "z", 2, 5⟩,
      ⟨.SEMICOLON, .vStr ";", 2, 6⟩, ⟨.EOF, .vNone, 2, 7⟩]
     ⟨[.varDecl "y" 1, .assign "y" (.ident "z" 2) 2]⟩
     (.semanticError ("Se encontraron errores semanticos:\n" ++
       "Error semantico (linea 2): Variable 'z' no declarada."))
     rfl rfl rfl⟩

end MiniLang
